import Mathlib

/-!
Verification development for the WebCAN repository (`src/app.py`).

The core of the program is `decode_can(dbc_path, trc_path)`:

* it reads the first 10 lines of the trace file unconditionally
  (`[next(file) for _ in range(10)]`), locates a `;$FILEVERSION=` marker
  line among them, and selects one of three line regexes by the version
  token (defaulting to the `2.1` regex);
* it scans all lines with `pattern.match`, producing for each match the
  triple `(float(group 1), int(group 2, 16), group(4).strip())`;
* it builds a dict with a `Timestamp` column plus one column per signal
  name declared in the DBC database (via `dict.setdefault`, each
  initialised to `[None] * len(timestamps)`);
* for each record it looks up the message by frame id (a `KeyError` is
  caught and the record is skipped), converts the payload tokens with
  `bytes(int(x, 16) for x in payload.split())` (a token value above 255
  raises an unhandled `ValueError`), decodes, and scatters the decoded
  name/value pairs into row `idx`;
* finally `pandas.DataFrame(result).dropna(axis=1, how='all')` drops every
  column whose cells are all `None` (with zero rows, every column).

The embedding below models a trace file as the list of lines that Python
line iteration yields, strings as `String`/`List Char`, Python floats of
the form `\d+\.\d+` by their exact decimal value in `ℚ`, and unhandled
Python exceptions by `Except.error`.  The external `cantools` database is
modelled by the `Db` structure: an ordered list of messages, each carrying
its frame id, its declared signal names, and an opaque decode function
(`none` models a decode exception); the field `hdec` records the cantools
guarantee that decoded keys are signal names of the message.

The three regexes are embedded verbatim as token lists (`RPat`) over a
matcher `reM` implementing Python's leftmost, greedy, backtracking
semantics for this fragment (character classes, literals, greedy `*`/`+`,
with `+` desugared as a class token followed by a star token).
-/

/-- Python `\s` on the inputs of interest (ASCII range plus U+0085). -/
def isSpacePy (c : Char) : Bool :=
  c == ' ' || c == '\t' || c == '\n' || c == '\x0b' || c == '\x0c' || c == '\r' ||
  c == '\x1c' || c == '\x1d' || c == '\x1e' || c == '\x1f' || c == '\x85'

/-- Python `\d` (ASCII digits). -/
def isDigitC (c : Char) : Bool := c.isDigit

/-- The regex class `[0-9A-Fa-f]`. -/
def isHexC (c : Char) : Bool :=
  c.isDigit || (decide ('A' ≤ c) && decide (c ≤ 'F')) || (decide ('a' ≤ c) && decide (c ≤ 'f'))

/-- Python `\w` (ASCII alphanumerics and underscore). -/
def isWordPy (c : Char) : Bool := c.isAlphanum || c == '_'

/-- The regex class `[0-9A-Fa-f\s]` of the payload groups. -/
def isHexSp (c : Char) : Bool := isHexC c || isSpacePy c

/-- One token of the regex fragment used by the three trace grammars:
a literal character, a single-character class, or a greedy star over a
class.  A greedy plus is expressed as a class token followed by a star. -/
inductive RTok where
  | lit : Char → RTok
  | cls : (Char → Bool) → RTok
  | star : (Char → Bool) → RTok

/-- A pattern: tokens tagged with the capture group they belong to. -/
abbrev RPat := List (Option Nat × RTok)

/-- Greedy star with backtracking: consume as many `p`-characters as
possible such that the continuation `next` matches the remainder; return
the consumed run and the continuation's output. -/
def starGo (next : List Char → Option (List (List Char))) (p : Char → Bool) :
    List Char → Option (List Char × List (List Char))
  | [] => (next []).map (fun o => ([], o))
  | x :: xs =>
    if p x then
      match starGo next p xs with
      | some (r, o) => some (x :: r, o)
      | none => (next (x :: xs)).map (fun o => ([], o))
    else (next (x :: xs)).map (fun o => ([], o))

/-- The matcher: `reM pat s` returns, when the pattern matches a prefix of
`s` (as `re.match` requires), the list of runs consumed by each token, in
token order.  Greedy, leftmost, backtracking — Python `re` semantics for
this fragment. -/
def reM : RPat → List Char → Option (List (List Char))
  | [], _ => some []
  | (_, RTok.lit c) :: rest, s =>
    match s with
    | [] => none
    | x :: xs => if x = c then (reM rest xs).map (fun o => [x] :: o) else none
  | (_, RTok.cls p) :: rest, s =>
    match s with
    | [] => none
    | x :: xs => if p x then (reM rest xs).map (fun o => [x] :: o) else none
  | (_, RTok.star p) :: rest, s => (starGo (reM rest) p s).map (fun ro => ro.1 :: ro.2)

/-- Content of capture group `n`: concatenation of the runs consumed by
the tokens tagged `n`. -/
def cap (pat : RPat) (outs : List (List Char)) (n : Nat) : List Char :=
  ((pat.zip outs).filterMap (fun x => if x.1.1 = some n then some x.2 else none)).flatten

/-- Pattern segment for a greedy `+` over a class, tagged `t`. -/
def plusG (t : Option Nat) (p : Char → Bool) : RPat := [(t, RTok.cls p), (t, RTok.star p)]

/-- Pattern segment for a greedy `*` over a class, tagged `t`. -/
def starG (t : Option Nat) (p : Char → Bool) : RPat := [(t, RTok.star p)]

/-- Pattern segment for a literal character, tagged `t`. -/
def litG (t : Option Nat) (c : Char) : RPat := [(t, RTok.lit c)]

/-- `^\s*\d+\)\s+(\d+\.\d+)\s+\w+\s+([0-9A-Fa-f]+)\s+(\d+)\s+([0-9A-Fa-f\s]+)` -/
def pattern_v1 : RPat :=
  starG none isSpacePy ++ plusG none isDigitC ++ litG none ')' ++ plusG none isSpacePy ++
  plusG (some 1) isDigitC ++ litG (some 1) '.' ++ plusG (some 1) isDigitC ++
  plusG none isSpacePy ++ plusG none isWordPy ++ plusG none isSpacePy ++
  plusG (some 2) isHexC ++ plusG none isSpacePy ++ plusG (some 3) isDigitC ++
  plusG none isSpacePy ++ plusG (some 4) isHexSp

/-- `\s*\d+\s+(\d+\.\d+)\s+DT\s+\d+\s+([0-9A-Fa-f]+)\s+Rx\s+(\d+)\s+([0-9A-Fa-f\s]+)`
(`re.match` anchors at the start of the line, so the missing `^` is
irrelevant). -/
def pattern_v2 : RPat :=
  starG none isSpacePy ++ plusG none isDigitC ++ plusG none isSpacePy ++
  plusG (some 1) isDigitC ++ litG (some 1) '.' ++ plusG (some 1) isDigitC ++
  plusG none isSpacePy ++ litG none 'D' ++ litG none 'T' ++ plusG none isSpacePy ++
  plusG none isDigitC ++ plusG none isSpacePy ++ plusG (some 2) isHexC ++
  plusG none isSpacePy ++ litG none 'R' ++ litG none 'x' ++ plusG none isSpacePy ++
  plusG (some 3) isDigitC ++ plusG none isSpacePy ++ plusG (some 4) isHexSp

/-- `^\s*\d+\s+(\d+\.\d+)\s+DT\s+\d+\s+([0-9A-Fa-f]+)\s+Rx\s+-\s+(\d+)\s+([0-9A-Fa-f\s]+)` -/
def pattern_v3 : RPat :=
  starG none isSpacePy ++ plusG none isDigitC ++ plusG none isSpacePy ++
  plusG (some 1) isDigitC ++ litG (some 1) '.' ++ plusG (some 1) isDigitC ++
  plusG none isSpacePy ++ litG none 'D' ++ litG none 'T' ++ plusG none isSpacePy ++
  plusG none isDigitC ++ plusG none isSpacePy ++ plusG (some 2) isHexC ++
  plusG none isSpacePy ++ litG none 'R' ++ litG none 'x' ++ plusG none isSpacePy ++
  litG none '-' ++ plusG none isSpacePy ++
  plusG (some 3) isDigitC ++ plusG none isSpacePy ++ plusG (some 4) isHexSp

/-- Python `int(s)` on a string of decimal digits. -/
def natOfDigits (cs : List Char) : Nat :=
  cs.foldl (fun a c => 10 * a + (c.toNat - 48)) 0

/-- Value of one hexadecimal digit, either case. -/
def hexDigitVal (c : Char) : Nat :=
  if c.isDigit then c.toNat - 48
  else if decide ('A' ≤ c) && decide (c ≤ 'F') then c.toNat - 55
  else if decide ('a' ≤ c) && decide (c ≤ 'f') then c.toNat - 87
  else 0

/-- Python `int(s, 16)` on a string of hexadecimal digits. -/
def hexValN (cs : List Char) : Nat :=
  cs.foldl (fun a c => 16 * a + hexDigitVal c) 0

/-- Python `str.strip()`: drop leading and trailing whitespace. -/
def pstrip (cs : List Char) : List Char :=
  (((cs.dropWhile isSpacePy).reverse.dropWhile isSpacePy)).reverse

/-- Python `s.split("=")[-1]`: the suffix after the last `=` (the whole
string when there is no `=`). -/
def afterLastEq (cs : List Char) : List Char :=
  (cs.reverse.takeWhile (fun c => !(c == '='))).reverse

/-- Helper of `splitWs`, carrying the reversed current token. -/
def splitWsAux : List Char → List Char → List (List Char)
  | [], acc => if acc.isEmpty then [] else [acc.reverse]
  | c :: cs, acc =>
    if isSpacePy c then
      if acc.isEmpty then splitWsAux cs [] else acc.reverse :: splitWsAux cs []
    else splitWsAux cs (c :: acc)

/-- Python `str.split()` (no argument): split on whitespace runs,
discarding empty tokens. -/
def splitWs (cs : List Char) : List (List Char) := splitWsAux cs []

/-- Python substring test `needle in haystack`. -/
def infixOfB (pat : List Char) : List Char → Bool
  | [] => pat.isEmpty
  | c :: cs => pat.isPrefixOf (c :: cs) || infixOfB pat cs

/-- Python `float(s)` on a string of shape `\d+\.\d+`, as its exact
decimal value in `ℚ` (built with `mkRat` so that it evaluates in the
kernel). -/
def ratOfDecimal (cs : List Char) : ℚ :=
  let ip := cs.takeWhile (fun c => !(c == '.'))
  let fp := (cs.dropWhile (fun c => !(c == '.'))).drop 1
  mkRat (natOfDigits ip * 10 ^ fp.length + natOfDigits fp) (10 ^ fp.length)

/-- One parsed trace record: `(float(group 1), int(group 2, 16),
group(4).strip())` from lines 40–42 of `app.py`. -/
structure TraceRecord where
  ts : ℚ
  fid : Nat
  payload : List Char
  deriving DecidableEq, Repr

/-- Application of the selected pattern to one line (lines 38–42): a
match yields one record, no match yields nothing. -/
def parseLine (pat : RPat) (line : String) : Option TraceRecord :=
  match reM pat line.data with
  | none => none
  | some outs =>
    some { ts := ratOfDecimal (cap pat outs 1)
         , fid := hexValN (cap pat outs 2)
         , payload := pstrip (cap pat outs 4) }

/-- The records matched in the whole file, in file order (the second
`with open` loop of `decode_can`). -/
def traceRecords (pat : RPat) (lines : List String) : List TraceRecord :=
  lines.filterMap (parseLine pat)

/-- The marker searched for in the header (line 20 of `app.py`). -/
def fileversionMarker : List Char := [';', '$', 'F', 'I', 'L', 'E', 'V', 'E', 'R', 'S', 'I', 'O', 'N', '=']

/-- `next((line for line in header if ";$FILEVERSION=" in line), "")`
over the first 10 lines. -/
def versionLine (lines : List String) : String :=
  ((lines.take 10).find? (fun l => infixOfB fileversionMarker l.data)).getD ""

/-- `version_line.strip().split("=")[-1]` (line 21). -/
def fileVersion (lines : List String) : String :=
  ⟨afterLastEq (pstrip (versionLine lines).data)⟩

/-- Grammar selection by version token (lines 26–33). -/
def selectPattern (lines : List String) : RPat :=
  if fileVersion lines = "1.1" then pattern_v1
  else if fileVersion lines = "2.0" then pattern_v2
  else if fileVersion lines = "2.1" then pattern_v3
  else pattern_v3

/-- One message of the loaded cantools database: frame id, declared
signal names (in declaration order), and the decode function
`msg.decode(data, decode_choices=False, scaling=True)`; `none` models a
decode exception.  `hdec` is the cantools guarantee that every decoded
key is one of the message's signal names. -/
structure Message where
  frame_id : Nat
  signals : List String
  decode : List Nat → Option (List (String × ℚ))
  hdec : ∀ bs kvs, decode bs = some kvs → ∀ kv ∈ kvs, kv.1 ∈ signals

/-- The loaded database: its messages in `db.messages` order. -/
structure Db where
  messages : List Message

/-- All signal names declared anywhere in the database, in the iteration
order of the two nested loops of lines 46–48. -/
def allSigNames (db : Db) : List String :=
  (db.messages.map (fun m => m.signals)).flatten

/-- `db.get_message_by_frame_id`: cantools builds a dict keyed by frame
id while iterating the messages, so a later message with the same id
wins; missing key models the `KeyError`. -/
def getMessageByFrameId (db : Db) (fid : Nat) : Option Message :=
  db.messages.foldl (fun acc m => if m.frame_id = fid then some m else acc) none

/-- A decoded cell: `none` is Python `None`. -/
abbrev Cell := Option ℚ

/-- The result dict / DataFrame: insertion-ordered columns. -/
abbrev Table := List (String × List Cell)

/-- `result.setdefault(k, v)`: append the column only when the key is new. -/
def setdefault (t : Table) (k : String) (v : List Cell) : Table :=
  if t.any (fun c => c.1 == k) then t else t ++ [(k, v)]

/-- Lines 45–48: the dict with the `Timestamp` column first, then one
column of `None` placeholders per signal name, folded over the signal
names in nested-loop order. -/
def initTable (db : Db) (tss : List ℚ) : Table :=
  (allSigNames db).foldl
    (fun t s => setdefault t s (List.replicate tss.length none))
    [("Timestamp", tss.map (fun q => some q))]

/-- `result[k][idx] = v`. -/
def setCell (t : Table) (k : String) (idx : Nat) (v : ℚ) : Table :=
  t.map (fun c => if c.1 == k then (c.1, c.2.set idx (some v)) else c)

/-- Unhandled Python exceptions of `decode_can`: `StopIteration` from the
header read of a short file, `ValueError` from `bytes()` on a token
above 255, and a `cantools` decode error. -/
inductive DecErr where
  | headerEOF
  | byteRange
  | decodeFail
  deriving DecidableEq, Repr

/-- `bytes(int(x, 16) for x in payload.split())`: `none` models the
`ValueError` raised when a token value is not a byte. -/
def payloadBytes (payload : List Char) : Option (List Nat) :=
  (splitWs payload).mapM (fun tok =>
    let v := hexValN tok
    if v < 256 then some v else none)

/-- The body of the decode loop (lines 51–59) for one record at row
`idx`: an unknown frame id is skipped (`except KeyError: continue`), a
bad byte or decode failure aborts, and otherwise the decoded pairs are
scattered into row `idx`. -/
def scatterOne (db : Db) (t : Table) (idx : Nat) (r : TraceRecord) : Except DecErr Table :=
  match getMessageByFrameId db r.fid with
  | none => Except.ok t
  | some m =>
    match payloadBytes r.payload with
    | none => Except.error DecErr.byteRange
    | some bs =>
      match m.decode bs with
      | none => Except.error DecErr.decodeFail
      | some kvs => Except.ok (kvs.foldl (fun t kv => setCell t kv.1 idx kv.2) t)

/-- The decode loop over all records, `idx` counting as `enumerate`. -/
def scatterAll (db : Db) : Table → Nat → List TraceRecord → Except DecErr Table
  | t, _, [] => Except.ok t
  | t, idx, r :: rs =>
    match scatterOne db t idx r with
    | Except.error e => Except.error e
    | Except.ok u => scatterAll db u (idx + 1) rs

/-- `df.dropna(axis=1, how='all')`: keep a column only when some cell is
not `None` (with zero rows every column is dropped, as pandas does). -/
def dropEmptyCols (t : Table) : Table :=
  t.filter (fun c => c.2.any (fun x => x.isSome))

/-- The whole of `decode_can` over the loaded database and the trace
lines: the unconditional 10-line header read, grammar selection, line
scan, table build, decode loop, and column pruning. -/
def decode_can (db : Db) (lines : List String) : Except DecErr Table :=
  if lines.length < 10 then Except.error DecErr.headerEOF
  else
    match scatterAll db
        (initTable db ((traceRecords (selectPattern lines) lines).map (fun r => r.ts)))
        0 (traceRecords (selectPattern lines) lines) with
    | Except.error e => Except.error e
    | Except.ok t => Except.ok (dropEmptyCols t)

/-- Observable outcome of the `decode_and_plot` callback: either a status
message or one chart per listed column, together with the `disabled`
state of the download button. -/
inductive PlotOut where
  | msg : String → Bool → PlotOut
  | charts : List String → Bool → PlotOut
  deriving DecidableEq, Repr

/-- Number of rows of the DataFrame (`len(df)`). -/
def numRows (t : Table) : Nat :=
  match t with
  | [] => 0
  | c :: _ => c.2.length

/-- The guard structure of `decode_and_plot` (lines 126–144), at its
boundary: the two staged-file existence flags and the decoded table. -/
def decode_and_plot (dbcExists trcExists : Bool) (df : Table) : PlotOut :=
  if !(dbcExists && trcExists) then PlotOut.msg "Please upload both files." true
  else if numRows df = 0 || df.length < 2 then PlotOut.msg "No data to plot." true
  else PlotOut.charts ((df.map (fun c => c.1)).filter (fun c => c.toLower ≠ "timestamp")) false

/-! ## Matcher lemmas

The three patterns interleave character-class runs whose classes are
disjoint from their neighbours (whitespace against digits, word
characters, hexadecimal digits), so on a well-formed line the greedy
matcher consumes exactly the intended fields.  The lemmas below capture
one segment each. -/

/-- The first character of `s` (if any) is outside the class `p`. -/
def HeadNot (p : Char → Bool) (s : List Char) : Prop :=
  ∀ c, s.head? = some c → p c = false

theorem headNot_nil (p : Char → Bool) : HeadNot p [] := by
  intro c hc
  simp at hc

theorem headNot_cons {p : Char → Bool} {c : Char} (s : List Char) (h : p c = false) :
    HeadNot p (c :: s) := by
  intro d hd
  simp at hd
  exact hd ▸ h

theorem starGo_append (next : List Char → Option (List (List Char))) (p : Char → Bool)
    (a s : List Char) (out : List (List Char))
    (ha : ∀ c ∈ a, p c = true) (hstop : HeadNot p s) (hnext : next s = some out) :
    starGo next p (a ++ s) = some (a, out) := by
  induction a with
  | nil =>
    cases s with
    | nil => simp [starGo, hnext]
    | cons c s' =>
      have hc := hstop c rfl
      simp [starGo, hc, hnext]
  | cons x a ih =>
    have hx : p x = true := ha x (by simp)
    have ih2 := ih (fun c hc => ha c (by simp [hc]))
    simp [starGo, hx, ih2]

theorem reM_star (t : Option Nat) (p : Char → Bool) (rest : RPat)
    (a s : List Char) (out : List (List Char))
    (ha : ∀ c ∈ a, p c = true) (hstop : HeadNot p s) (hrest : reM rest s = some out) :
    reM ((t, RTok.star p) :: rest) (a ++ s) = some (a :: out) := by
  simp [reM, starGo_append (reM rest) p a s out ha hstop hrest]

theorem reM_cls (t : Option Nat) (p : Char → Bool) (rest : RPat)
    (x : Char) (s : List Char) (out : List (List Char))
    (hx : p x = true) (hrest : reM rest s = some out) :
    reM ((t, RTok.cls p) :: rest) (x :: s) = some ([x] :: out) := by
  simp [reM, hx, hrest]

theorem reM_lit (t : Option Nat) (c : Char) (rest : RPat)
    (s : List Char) (out : List (List Char)) (hrest : reM rest s = some out) :
    reM ((t, RTok.lit c) :: rest) (c :: s) = some ([c] :: out) := by
  simp [reM, hrest]

theorem reM_plus (t1 t2 : Option Nat) (p : Char → Bool) (rest : RPat)
    (x : Char) (a s : List Char) (out : List (List Char))
    (hx : p x = true) (ha : ∀ c ∈ a, p c = true) (hstop : HeadNot p s)
    (hrest : reM rest s = some out) :
    reM ((t1, RTok.cls p) :: (t2, RTok.star p) :: rest) (x :: (a ++ s)) =
      some ([x] :: a :: out) :=
  reM_cls t1 p _ x (a ++ s) (a :: out) hx (reM_star t2 p rest a s out ha hstop hrest)

/-! ## Character-class disjointness -/

theorem space_enum (c : Char) (h : isSpacePy c = true) :
    c = ' ' ∨ c = '\t' ∨ c = '\n' ∨ c = '\x0b' ∨ c = '\x0c' ∨ c = '\r' ∨
    c = '\x1c' ∨ c = '\x1d' ∨ c = '\x1e' ∨ c = '\x1f' ∨ c = '\x85' := by
  simp [isSpacePy] at h
  tauto

theorem not_digit_of_space (c : Char) (h : isSpacePy c = true) : isDigitC c = false := by
  rcases space_enum c h with rfl|rfl|rfl|rfl|rfl|rfl|rfl|rfl|rfl|rfl|rfl <;> decide

theorem not_word_of_space (c : Char) (h : isSpacePy c = true) : isWordPy c = false := by
  rcases space_enum c h with rfl|rfl|rfl|rfl|rfl|rfl|rfl|rfl|rfl|rfl|rfl <;> decide

theorem not_hex_of_space (c : Char) (h : isSpacePy c = true) : isHexC c = false := by
  rcases space_enum c h with rfl|rfl|rfl|rfl|rfl|rfl|rfl|rfl|rfl|rfl|rfl <;> decide

theorem not_space_of_digit (c : Char) (h : isDigitC c = true) : isSpacePy c = false := by
  cases hs : isSpacePy c with
  | false => rfl
  | true => rw [not_digit_of_space c hs] at h; cases h

theorem not_space_of_hex (c : Char) (h : isHexC c = true) : isSpacePy c = false := by
  cases hs : isSpacePy c with
  | false => rfl
  | true => rw [not_hex_of_space c hs] at h; cases h

theorem not_space_of_word (c : Char) (h : isWordPy c = true) : isSpacePy c = false := by
  cases hs : isSpacePy c with
  | false => rfl
  | true => rw [not_word_of_space c hs] at h; cases h

/-! ## Well-formed lines parse to the expected record

`mkV1`, `mkV2`, `mkV3` build a line of the shape each grammar is meant to
match: leading whitespace, sequence number, the version-specific fixed
tokens, timestamp `tI.tF`, frame id, declared length, payload. -/

/-- A line of the `1.1` grammar shape. -/
def mkV1 (lead seq w1 tI tF w2 dir w3 fid w4 len w5 pl : List Char) : List Char :=
  lead ++ (seq ++ ')' :: (w1 ++ (tI ++ '.' ::
    (tF ++ (w2 ++ (dir ++ (w3 ++ (fid ++ (w4 ++ (len ++ (w5 ++ pl)))))))))))

theorem parseLine_v1
    (lead seq w1 tI tF w2 dir w3 fid w4 len w5 pl : List Char)
    (hlead : ∀ c ∈ lead, isSpacePy c = true)
    (hseq : seq ≠ []) (hseqD : ∀ c ∈ seq, isDigitC c = true)
    (hw1 : w1 ≠ []) (hw1S : ∀ c ∈ w1, isSpacePy c = true)
    (htI : tI ≠ []) (htID : ∀ c ∈ tI, isDigitC c = true)
    (htF : tF ≠ []) (htFD : ∀ c ∈ tF, isDigitC c = true)
    (hw2 : w2 ≠ []) (hw2S : ∀ c ∈ w2, isSpacePy c = true)
    (hdir : dir ≠ []) (hdirW : ∀ c ∈ dir, isWordPy c = true)
    (hw3 : w3 ≠ []) (hw3S : ∀ c ∈ w3, isSpacePy c = true)
    (hfid : fid ≠ []) (hfidH : ∀ c ∈ fid, isHexC c = true)
    (hw4 : w4 ≠ []) (hw4S : ∀ c ∈ w4, isSpacePy c = true)
    (hlen : len ≠ []) (hlenD : ∀ c ∈ len, isDigitC c = true)
    (hw5 : w5 ≠ []) (hw5S : ∀ c ∈ w5, isSpacePy c = true)
    (hpl : pl ≠ []) (hplH : ∀ c ∈ pl, isHexSp c = true) (hpl0 : HeadNot isSpacePy pl) :
    parseLine pattern_v1 (String.mk (mkV1 lead seq w1 tI tF w2 dir w3 fid w4 len w5 pl)) =
      some { ts := ratOfDecimal (tI ++ '.' :: tF), fid := hexValN fid, payload := pstrip pl } := by
  obtain ⟨c1, seq, rfl⟩ := List.exists_cons_of_ne_nil hseq
  obtain ⟨a1, w1, rfl⟩ := List.exists_cons_of_ne_nil hw1
  obtain ⟨i1, tI, rfl⟩ := List.exists_cons_of_ne_nil htI
  obtain ⟨f1, tF, rfl⟩ := List.exists_cons_of_ne_nil htF
  obtain ⟨a2, w2, rfl⟩ := List.exists_cons_of_ne_nil hw2
  obtain ⟨d1, dir, rfl⟩ := List.exists_cons_of_ne_nil hdir
  obtain ⟨a3, w3, rfl⟩ := List.exists_cons_of_ne_nil hw3
  obtain ⟨x1, fid, rfl⟩ := List.exists_cons_of_ne_nil hfid
  obtain ⟨a4, w4, rfl⟩ := List.exists_cons_of_ne_nil hw4
  obtain ⟨n1, len, rfl⟩ := List.exists_cons_of_ne_nil hlen
  obtain ⟨a5, w5, rfl⟩ := List.exists_cons_of_ne_nil hw5
  obtain ⟨p1, pl, rfl⟩ := List.exists_cons_of_ne_nil hpl
  have h13 : reM [(some 4, RTok.cls isHexSp), (some 4, RTok.star isHexSp)] (p1 :: pl) =
      some [[p1], pl] := by
    have := reM_plus (some 4) (some 4) isHexSp [] p1 pl [] []
      (hplH p1 (by simp)) (fun c hc => hplH c (by simp [hc])) (headNot_nil _) rfl
    simpa using this
  have h12 : reM ((none, RTok.cls isSpacePy) :: (none, RTok.star isSpacePy) ::
      [(some 4, RTok.cls isHexSp), (some 4, RTok.star isHexSp)])
      (a5 :: (w5 ++ p1 :: pl)) = some ([a5] :: w5 :: [[p1], pl]) :=
    reM_plus _ _ _ _ _ _ _ _ (hw5S a5 (by simp)) (fun c hc => hw5S c (by simp [hc])) hpl0 h13
  have h11 : reM ((some 3, RTok.cls isDigitC) :: (some 3, RTok.star isDigitC) ::
      (none, RTok.cls isSpacePy) :: (none, RTok.star isSpacePy) ::
      [(some 4, RTok.cls isHexSp), (some 4, RTok.star isHexSp)])
      (n1 :: (len ++ a5 :: (w5 ++ p1 :: pl))) =
      some ([n1] :: len :: [a5] :: w5 :: [[p1], pl]) :=
    reM_plus _ _ _ _ _ _ _ _ (hlenD n1 (by simp)) (fun c hc => hlenD c (by simp [hc]))
      (headNot_cons _ (not_digit_of_space a5 (hw5S a5 (by simp)))) h12
  have h10 : reM ((none, RTok.cls isSpacePy) :: (none, RTok.star isSpacePy) ::
      (some 3, RTok.cls isDigitC) :: (some 3, RTok.star isDigitC) ::
      (none, RTok.cls isSpacePy) :: (none, RTok.star isSpacePy) ::
      [(some 4, RTok.cls isHexSp), (some 4, RTok.star isHexSp)])
      (a4 :: (w4 ++ n1 :: (len ++ a5 :: (w5 ++ p1 :: pl)))) =
      some ([a4] :: w4 :: [n1] :: len :: [a5] :: w5 :: [[p1], pl]) :=
    reM_plus _ _ _ _ _ _ _ _ (hw4S a4 (by simp)) (fun c hc => hw4S c (by simp [hc]))
      (headNot_cons _ (not_space_of_digit n1 (hlenD n1 (by simp)))) h11
  have h9 : reM ((some 2, RTok.cls isHexC) :: (some 2, RTok.star isHexC) ::
      (none, RTok.cls isSpacePy) :: (none, RTok.star isSpacePy) ::
      (some 3, RTok.cls isDigitC) :: (some 3, RTok.star isDigitC) ::
      (none, RTok.cls isSpacePy) :: (none, RTok.star isSpacePy) ::
      [(some 4, RTok.cls isHexSp), (some 4, RTok.star isHexSp)])
      (x1 :: (fid ++ a4 :: (w4 ++ n1 :: (len ++ a5 :: (w5 ++ p1 :: pl))))) =
      some ([x1] :: fid :: [a4] :: w4 :: [n1] :: len :: [a5] :: w5 :: [[p1], pl]) :=
    reM_plus _ _ _ _ _ _ _ _ (hfidH x1 (by simp)) (fun c hc => hfidH c (by simp [hc]))
      (headNot_cons _ (not_hex_of_space a4 (hw4S a4 (by simp)))) h10
  have h8 : reM ((none, RTok.cls isSpacePy) :: (none, RTok.star isSpacePy) ::
      (some 2, RTok.cls isHexC) :: (some 2, RTok.star isHexC) ::
      (none, RTok.cls isSpacePy) :: (none, RTok.star isSpacePy) ::
      (some 3, RTok.cls isDigitC) :: (some 3, RTok.star isDigitC) ::
      (none, RTok.cls isSpacePy) :: (none, RTok.star isSpacePy) ::
      [(some 4, RTok.cls isHexSp), (some 4, RTok.star isHexSp)])
      (a3 :: (w3 ++ x1 :: (fid ++ a4 :: (w4 ++ n1 :: (len ++ a5 :: (w5 ++ p1 :: pl)))))) =
      some ([a3] :: w3 :: [x1] :: fid :: [a4] :: w4 :: [n1] :: len :: [a5] :: w5 :: [[p1], pl]) :=
    reM_plus _ _ _ _ _ _ _ _ (hw3S a3 (by simp)) (fun c hc => hw3S c (by simp [hc]))
      (headNot_cons _ (not_space_of_hex x1 (hfidH x1 (by simp)))) h9
  have h7 : reM ((none, RTok.cls isWordPy) :: (none, RTok.star isWordPy) ::
      (none, RTok.cls isSpacePy) :: (none, RTok.star isSpacePy) ::
      (some 2, RTok.cls isHexC) :: (some 2, RTok.star isHexC) ::
      (none, RTok.cls isSpacePy) :: (none, RTok.star isSpacePy) ::
      (some 3, RTok.cls isDigitC) :: (some 3, RTok.star isDigitC) ::
      (none, RTok.cls isSpacePy) :: (none, RTok.star isSpacePy) ::
      [(some 4, RTok.cls isHexSp), (some 4, RTok.star isHexSp)])
      (d1 :: (dir ++ a3 :: (w3 ++ x1 :: (fid ++ a4 :: (w4 ++ n1 :: (len ++ a5 :: (w5 ++ p1 :: pl))))))) =
      some ([d1] :: dir :: [a3] :: w3 :: [x1] :: fid :: [a4] :: w4 :: [n1] :: len :: [a5] :: w5 :: [[p1], pl]) :=
    reM_plus _ _ _ _ _ _ _ _ (hdirW d1 (by simp)) (fun c hc => hdirW c (by simp [hc]))
      (headNot_cons _ (not_word_of_space a3 (hw3S a3 (by simp)))) h8
  have h6 : reM ((none, RTok.cls isSpacePy) :: (none, RTok.star isSpacePy) ::
      (none, RTok.cls isWordPy) :: (none, RTok.star isWordPy) ::
      (none, RTok.cls isSpacePy) :: (none, RTok.star isSpacePy) ::
      (some 2, RTok.cls isHexC) :: (some 2, RTok.star isHexC) ::
      (none, RTok.cls isSpacePy) :: (none, RTok.star isSpacePy) ::
      (some 3, RTok.cls isDigitC) :: (some 3, RTok.star isDigitC) ::
      (none, RTok.cls isSpacePy) :: (none, RTok.star isSpacePy) ::
      [(some 4, RTok.cls isHexSp), (some 4, RTok.star isHexSp)])
      (a2 :: (w2 ++ d1 :: (dir ++ a3 :: (w3 ++ x1 :: (fid ++ a4 :: (w4 ++ n1 :: (len ++ a5 :: (w5 ++ p1 :: pl)))))))) =
      some ([a2] :: w2 :: [d1] :: dir :: [a3] :: w3 :: [x1] :: fid :: [a4] :: w4 :: [n1] :: len :: [a5] :: w5 :: [[p1], pl]) :=
    reM_plus _ _ _ _ _ _ _ _ (hw2S a2 (by simp)) (fun c hc => hw2S c (by simp [hc]))
      (headNot_cons _ (not_space_of_word d1 (hdirW d1 (by simp)))) h7
  have h5 : reM ((some 1, RTok.cls isDigitC) :: (some 1, RTok.star isDigitC) ::
      (none, RTok.cls isSpacePy) :: (none, RTok.star isSpacePy) ::
      (none, RTok.cls isWordPy) :: (none, RTok.star isWordPy) ::
      (none, RTok.cls isSpacePy) :: (none, RTok.star isSpacePy) ::
      (some 2, RTok.cls isHexC) :: (some 2, RTok.star isHexC) ::
      (none, RTok.cls isSpacePy) :: (none, RTok.star isSpacePy) ::
      (some 3, RTok.cls isDigitC) :: (some 3, RTok.star isDigitC) ::
      (none, RTok.cls isSpacePy) :: (none, RTok.star isSpacePy) ::
      [(some 4, RTok.cls isHexSp), (some 4, RTok.star isHexSp)])
      (f1 :: (tF ++ a2 :: (w2 ++ d1 :: (dir ++ a3 :: (w3 ++ x1 :: (fid ++ a4 :: (w4 ++ n1 :: (len ++ a5 :: (w5 ++ p1 :: pl))))))))) =
      some ([f1] :: tF :: [a2] :: w2 :: [d1] :: dir :: [a3] :: w3 :: [x1] :: fid :: [a4] :: w4 :: [n1] :: len :: [a5] :: w5 :: [[p1], pl]) :=
    reM_plus _ _ _ _ _ _ _ _ (htFD f1 (by simp)) (fun c hc => htFD c (by simp [hc]))
      (headNot_cons _ (not_digit_of_space a2 (hw2S a2 (by simp)))) h6
  have h4 : reM ((some 1, RTok.lit '.') ::
      (some 1, RTok.cls isDigitC) :: (some 1, RTok.star isDigitC) ::
      (none, RTok.cls isSpacePy) :: (none, RTok.star isSpacePy) ::
      (none, RTok.cls isWordPy) :: (none, RTok.star isWordPy) ::
      (none, RTok.cls isSpacePy) :: (none, RTok.star isSpacePy) ::
      (some 2, RTok.cls isHexC) :: (some 2, RTok.star isHexC) ::
      (none, RTok.cls isSpacePy) :: (none, RTok.star isSpacePy) ::
      (some 3, RTok.cls isDigitC) :: (some 3, RTok.star isDigitC) ::
      (none, RTok.cls isSpacePy) :: (none, RTok.star isSpacePy) ::
      [(some 4, RTok.cls isHexSp), (some 4, RTok.star isHexSp)])
      ('.' :: (f1 :: (tF ++ a2 :: (w2 ++ d1 :: (dir ++ a3 :: (w3 ++ x1 :: (fid ++ a4 :: (w4 ++ n1 :: (len ++ a5 :: (w5 ++ p1 :: pl)))))))))) =
      some (['.'] :: [f1] :: tF :: [a2] :: w2 :: [d1] :: dir :: [a3] :: w3 :: [x1] :: fid :: [a4] :: w4 :: [n1] :: len :: [a5] :: w5 :: [[p1], pl]) :=
    reM_lit _ _ _ _ _ h5
  have h3 : reM ((some 1, RTok.cls isDigitC) :: (some 1, RTok.star isDigitC) ::
      (some 1, RTok.lit '.') ::
      (some 1, RTok.cls isDigitC) :: (some 1, RTok.star isDigitC) ::
      (none, RTok.cls isSpacePy) :: (none, RTok.star isSpacePy) ::
      (none, RTok.cls isWordPy) :: (none, RTok.star isWordPy) ::
      (none, RTok.cls isSpacePy) :: (none, RTok.star isSpacePy) ::
      (some 2, RTok.cls isHexC) :: (some 2, RTok.star isHexC) ::
      (none, RTok.cls isSpacePy) :: (none, RTok.star isSpacePy) ::
      (some 3, RTok.cls isDigitC) :: (some 3, RTok.star isDigitC) ::
      (none, RTok.cls isSpacePy) :: (none, RTok.star isSpacePy) ::
      [(some 4, RTok.cls isHexSp), (some 4, RTok.star isHexSp)])
      (i1 :: (tI ++ '.' :: (f1 :: (tF ++ a2 :: (w2 ++ d1 :: (dir ++ a3 :: (w3 ++ x1 :: (fid ++ a4 :: (w4 ++ n1 :: (len ++ a5 :: (w5 ++ p1 :: pl))))))))))) =
      some ([i1] :: tI :: ['.'] :: [f1] :: tF :: [a2] :: w2 :: [d1] :: dir :: [a3] :: w3 :: [x1] :: fid :: [a4] :: w4 :: [n1] :: len :: [a5] :: w5 :: [[p1], pl]) :=
    reM_plus _ _ _ _ _ _ _ _ (htID i1 (by simp)) (fun c hc => htID c (by simp [hc]))
      (headNot_cons _ (by decide)) h4
  have h2 : reM ((none, RTok.cls isSpacePy) :: (none, RTok.star isSpacePy) ::
      (some 1, RTok.cls isDigitC) :: (some 1, RTok.star isDigitC) ::
      (some 1, RTok.lit '.') ::
      (some 1, RTok.cls isDigitC) :: (some 1, RTok.star isDigitC) ::
      (none, RTok.cls isSpacePy) :: (none, RTok.star isSpacePy) ::
      (none, RTok.cls isWordPy) :: (none, RTok.star isWordPy) ::
      (none, RTok.cls isSpacePy) :: (none, RTok.star isSpacePy) ::
      (some 2, RTok.cls isHexC) :: (some 2, RTok.star isHexC) ::
      (none, RTok.cls isSpacePy) :: (none, RTok.star isSpacePy) ::
      (some 3, RTok.cls isDigitC) :: (some 3, RTok.star isDigitC) ::
      (none, RTok.cls isSpacePy) :: (none, RTok.star isSpacePy) ::
      [(some 4, RTok.cls isHexSp), (some 4, RTok.star isHexSp)])
      (a1 :: (w1 ++ i1 :: (tI ++ '.' :: (f1 :: (tF ++ a2 :: (w2 ++ d1 :: (dir ++ a3 :: (w3 ++ x1 :: (fid ++ a4 :: (w4 ++ n1 :: (len ++ a5 :: (w5 ++ p1 :: pl)))))))))))) =
      some ([a1] :: w1 :: [i1] :: tI :: ['.'] :: [f1] :: tF :: [a2] :: w2 :: [d1] :: dir :: [a3] :: w3 :: [x1] :: fid :: [a4] :: w4 :: [n1] :: len :: [a5] :: w5 :: [[p1], pl]) :=
    reM_plus _ _ _ _ _ _ _ _ (hw1S a1 (by simp)) (fun c hc => hw1S c (by simp [hc]))
      (headNot_cons _ (not_space_of_digit i1 (htID i1 (by simp)))) h3
  have h1 : reM ((none, RTok.lit ')') ::
      (none, RTok.cls isSpacePy) :: (none, RTok.star isSpacePy) ::
      (some 1, RTok.cls isDigitC) :: (some 1, RTok.star isDigitC) ::
      (some 1, RTok.lit '.') ::
      (some 1, RTok.cls isDigitC) :: (some 1, RTok.star isDigitC) ::
      (none, RTok.cls isSpacePy) :: (none, RTok.star isSpacePy) ::
      (none, RTok.cls isWordPy) :: (none, RTok.star isWordPy) ::
      (none, RTok.cls isSpacePy) :: (none, RTok.star isSpacePy) ::
      (some 2, RTok.cls isHexC) :: (some 2, RTok.star isHexC) ::
      (none, RTok.cls isSpacePy) :: (none, RTok.star isSpacePy) ::
      (some 3, RTok.cls isDigitC) :: (some 3, RTok.star isDigitC) ::
      (none, RTok.cls isSpacePy) :: (none, RTok.star isSpacePy) ::
      [(some 4, RTok.cls isHexSp), (some 4, RTok.star isHexSp)])
      (')' :: (a1 :: (w1 ++ i1 :: (tI ++ '.' :: (f1 :: (tF ++ a2 :: (w2 ++ d1 :: (dir ++ a3 :: (w3 ++ x1 :: (fid ++ a4 :: (w4 ++ n1 :: (len ++ a5 :: (w5 ++ p1 :: pl))))))))))))) =
      some ([')'] :: [a1] :: w1 :: [i1] :: tI :: ['.'] :: [f1] :: tF :: [a2] :: w2 :: [d1] :: dir :: [a3] :: w3 :: [x1] :: fid :: [a4] :: w4 :: [n1] :: len :: [a5] :: w5 :: [[p1], pl]) :=
    reM_lit _ _ _ _ _ h2
  have h0 : reM ((none, RTok.cls isDigitC) :: (none, RTok.star isDigitC) ::
      (none, RTok.lit ')') ::
      (none, RTok.cls isSpacePy) :: (none, RTok.star isSpacePy) ::
      (some 1, RTok.cls isDigitC) :: (some 1, RTok.star isDigitC) ::
      (some 1, RTok.lit '.') ::
      (some 1, RTok.cls isDigitC) :: (some 1, RTok.star isDigitC) ::
      (none, RTok.cls isSpacePy) :: (none, RTok.star isSpacePy) ::
      (none, RTok.cls isWordPy) :: (none, RTok.star isWordPy) ::
      (none, RTok.cls isSpacePy) :: (none, RTok.star isSpacePy) ::
      (some 2, RTok.cls isHexC) :: (some 2, RTok.star isHexC) ::
      (none, RTok.cls isSpacePy) :: (none, RTok.star isSpacePy) ::
      (some 3, RTok.cls isDigitC) :: (some 3, RTok.star isDigitC) ::
      (none, RTok.cls isSpacePy) :: (none, RTok.star isSpacePy) ::
      [(some 4, RTok.cls isHexSp), (some 4, RTok.star isHexSp)])
      (c1 :: (seq ++ ')' :: (a1 :: (w1 ++ i1 :: (tI ++ '.' :: (f1 :: (tF ++ a2 :: (w2 ++ d1 :: (dir ++ a3 :: (w3 ++ x1 :: (fid ++ a4 :: (w4 ++ n1 :: (len ++ a5 :: (w5 ++ p1 :: pl)))))))))))))) =
      some ([c1] :: seq :: [')'] :: [a1] :: w1 :: [i1] :: tI :: ['.'] :: [f1] :: tF :: [a2] :: w2 :: [d1] :: dir :: [a3] :: w3 :: [x1] :: fid :: [a4] :: w4 :: [n1] :: len :: [a5] :: w5 :: [[p1], pl]) :=
    reM_plus _ _ _ _ _ _ _ _ (hseqD c1 (by simp)) (fun c hc => hseqD c (by simp [hc]))
      (headNot_cons _ (by decide)) h1
  have hm := reM_star none isSpacePy _ lead _ _ hlead
      (headNot_cons _ (not_space_of_digit c1 (hseqD c1 (List.mem_cons_self c1 seq)))) h0
  have hm2 : reM pattern_v1 (String.mk (mkV1 lead (c1 :: seq) (a1 :: w1) (i1 :: tI) (f1 :: tF)
      (a2 :: w2) (d1 :: dir) (a3 :: w3) (x1 :: fid) (a4 :: w4) (n1 :: len) (a5 :: w5)
      (p1 :: pl))).data = some (lead :: [c1] :: seq :: [')'] :: [a1] :: w1 :: [i1] :: tI ::
      ['.'] :: [f1] :: tF :: [a2] :: w2 :: [d1] :: dir :: [a3] :: w3 :: [x1] :: fid ::
      [a4] :: w4 :: [n1] :: len :: [a5] :: w5 :: [[p1], pl]) := hm
  simp only [parseLine]
  rw [hm2]
  simp [cap, pattern_v1, plusG, starG, litG]

/-- A line of the `2.0` grammar shape. -/
def mkV2 (lead seq w1 tI tF w2 w3 chan w4 fid w5 w6 len w7 pl : List Char) : List Char :=
  lead ++ (seq ++ (w1 ++ (tI ++ '.' :: (tF ++ (w2 ++ 'D' :: 'T' ::
    (w3 ++ (chan ++ (w4 ++ (fid ++ (w5 ++ 'R' :: 'x' ::
      (w6 ++ (len ++ (w7 ++ pl)))))))))))))

/-- A line of the `2.1` grammar shape. -/
def mkV3 (lead seq w1 tI tF w2 w3 chan w4 fid w5 w6 w7 len w8 pl : List Char) : List Char :=
  lead ++ (seq ++ (w1 ++ (tI ++ '.' :: (tF ++ (w2 ++ 'D' :: 'T' ::
    (w3 ++ (chan ++ (w4 ++ (fid ++ (w5 ++ 'R' :: 'x' ::
      (w6 ++ '-' :: (w7 ++ (len ++ (w8 ++ pl))))))))))))))

theorem parseLine_v2
    (lead seq w1 tI tF w2 w3 chan w4 fid w5 w6 len w7 pl : List Char)
    (hlead : ∀ c ∈ lead, isSpacePy c = true)
    (hseq : seq ≠ []) (hseqD : ∀ c ∈ seq, isDigitC c = true)
    (hw1 : w1 ≠ []) (hw1S : ∀ c ∈ w1, isSpacePy c = true)
    (htI : tI ≠ []) (htID : ∀ c ∈ tI, isDigitC c = true)
    (htF : tF ≠ []) (htFD : ∀ c ∈ tF, isDigitC c = true)
    (hw2 : w2 ≠ []) (hw2S : ∀ c ∈ w2, isSpacePy c = true)
    (hw3 : w3 ≠ []) (hw3S : ∀ c ∈ w3, isSpacePy c = true)
    (hchan : chan ≠ []) (hchanD : ∀ c ∈ chan, isDigitC c = true)
    (hw4 : w4 ≠ []) (hw4S : ∀ c ∈ w4, isSpacePy c = true)
    (hfid : fid ≠ []) (hfidH : ∀ c ∈ fid, isHexC c = true)
    (hw5 : w5 ≠ []) (hw5S : ∀ c ∈ w5, isSpacePy c = true)
    (hw6 : w6 ≠ []) (hw6S : ∀ c ∈ w6, isSpacePy c = true)
    (hlen : len ≠ []) (hlenD : ∀ c ∈ len, isDigitC c = true)
    (hw7 : w7 ≠ []) (hw7S : ∀ c ∈ w7, isSpacePy c = true)
    (hpl : pl ≠ []) (hplH : ∀ c ∈ pl, isHexSp c = true) (hpl0 : HeadNot isSpacePy pl) :
    parseLine pattern_v2 (String.mk (mkV2 lead seq w1 tI tF w2 w3 chan w4 fid w5 w6 len w7 pl)) =
      some { ts := ratOfDecimal (tI ++ '.' :: tF), fid := hexValN fid, payload := pstrip pl } := by
  obtain ⟨c1, seq, rfl⟩ := List.exists_cons_of_ne_nil hseq
  obtain ⟨a1, w1, rfl⟩ := List.exists_cons_of_ne_nil hw1
  obtain ⟨i1, tI, rfl⟩ := List.exists_cons_of_ne_nil htI
  obtain ⟨f1, tF, rfl⟩ := List.exists_cons_of_ne_nil htF
  obtain ⟨a2, w2, rfl⟩ := List.exists_cons_of_ne_nil hw2
  obtain ⟨a3, w3, rfl⟩ := List.exists_cons_of_ne_nil hw3
  obtain ⟨k1, chan, rfl⟩ := List.exists_cons_of_ne_nil hchan
  obtain ⟨a4, w4, rfl⟩ := List.exists_cons_of_ne_nil hw4
  obtain ⟨x1, fid, rfl⟩ := List.exists_cons_of_ne_nil hfid
  obtain ⟨a5, w5, rfl⟩ := List.exists_cons_of_ne_nil hw5
  obtain ⟨a6, w6, rfl⟩ := List.exists_cons_of_ne_nil hw6
  obtain ⟨n1, len, rfl⟩ := List.exists_cons_of_ne_nil hlen
  obtain ⟨a7, w7, rfl⟩ := List.exists_cons_of_ne_nil hw7
  obtain ⟨p1, pl, rfl⟩ := List.exists_cons_of_ne_nil hpl
  have hPl : reM [(some 4, RTok.cls isHexSp), (some 4, RTok.star isHexSp)] (p1 :: pl) =
      some [[p1], pl] := by
    have := reM_plus (some 4) (some 4) isHexSp [] p1 pl [] []
      (hplH p1 (by simp)) (fun c hc => hplH c (by simp [hc])) (headNot_nil _) rfl
    simpa using this
  have hW7 := reM_plus none none isSpacePy _ a7 w7 _ _
    (hw7S a7 (by simp)) (fun c hc => hw7S c (by simp [hc])) hpl0 hPl
  have hLen := reM_plus (some 3) (some 3) isDigitC _ n1 len _ _
    (hlenD n1 (by simp)) (fun c hc => hlenD c (by simp [hc]))
    (headNot_cons _ (not_digit_of_space a7 (hw7S a7 (by simp)))) hW7
  have hW6 := reM_plus none none isSpacePy _ a6 w6 _ _
    (hw6S a6 (by simp)) (fun c hc => hw6S c (by simp [hc]))
    (headNot_cons _ (not_space_of_digit n1 (hlenD n1 (by simp)))) hLen
  have hLx := reM_lit none 'x' _ _ _ hW6
  have hLR := reM_lit none 'R' _ _ _ hLx
  have hW5 := reM_plus none none isSpacePy _ a5 w5 _ _
    (hw5S a5 (by simp)) (fun c hc => hw5S c (by simp [hc]))
    (headNot_cons _ (show isSpacePy 'R' = false by decide)) hLR
  have hFid := reM_plus (some 2) (some 2) isHexC _ x1 fid _ _
    (hfidH x1 (by simp)) (fun c hc => hfidH c (by simp [hc]))
    (headNot_cons _ (not_hex_of_space a5 (hw5S a5 (by simp)))) hW5
  have hW4 := reM_plus none none isSpacePy _ a4 w4 _ _
    (hw4S a4 (by simp)) (fun c hc => hw4S c (by simp [hc]))
    (headNot_cons _ (not_space_of_hex x1 (hfidH x1 (by simp)))) hFid
  have hChan := reM_plus none none isDigitC _ k1 chan _ _
    (hchanD k1 (by simp)) (fun c hc => hchanD c (by simp [hc]))
    (headNot_cons _ (not_digit_of_space a4 (hw4S a4 (by simp)))) hW4
  have hW3 := reM_plus none none isSpacePy _ a3 w3 _ _
    (hw3S a3 (by simp)) (fun c hc => hw3S c (by simp [hc]))
    (headNot_cons _ (not_space_of_digit k1 (hchanD k1 (by simp)))) hChan
  have hLT := reM_lit none 'T' _ _ _ hW3
  have hLD := reM_lit none 'D' _ _ _ hLT
  have hW2 := reM_plus none none isSpacePy _ a2 w2 _ _
    (hw2S a2 (by simp)) (fun c hc => hw2S c (by simp [hc]))
    (headNot_cons _ (show isSpacePy 'D' = false by decide)) hLD
  have hTF := reM_plus (some 1) (some 1) isDigitC _ f1 tF _ _
    (htFD f1 (by simp)) (fun c hc => htFD c (by simp [hc]))
    (headNot_cons _ (not_digit_of_space a2 (hw2S a2 (by simp)))) hW2
  have hDot := reM_lit (some 1) '.' _ _ _ hTF
  have hTI := reM_plus (some 1) (some 1) isDigitC _ i1 tI _ _
    (htID i1 (by simp)) (fun c hc => htID c (by simp [hc]))
    (headNot_cons _ (show isDigitC '.' = false by decide)) hDot
  have hW1 := reM_plus none none isSpacePy _ a1 w1 _ _
    (hw1S a1 (by simp)) (fun c hc => hw1S c (by simp [hc]))
    (headNot_cons _ (not_space_of_digit i1 (htID i1 (by simp)))) hTI
  have hSeq := reM_plus none none isDigitC _ c1 seq _ _
    (hseqD c1 (by simp)) (fun c hc => hseqD c (by simp [hc]))
    (headNot_cons _ (not_digit_of_space a1 (hw1S a1 (by simp)))) hW1
  have hm := reM_star none isSpacePy _ lead _ _ hlead
    (headNot_cons _ (not_space_of_digit c1 (hseqD c1 (List.mem_cons_self c1 seq)))) hSeq
  have hm2 : reM pattern_v2 (String.mk (mkV2 lead (c1 :: seq) (a1 :: w1) (i1 :: tI) (f1 :: tF)
      (a2 :: w2) (a3 :: w3) (k1 :: chan) (a4 :: w4) (x1 :: fid) (a5 :: w5) (a6 :: w6)
      (n1 :: len) (a7 :: w7) (p1 :: pl))).data =
      some (lead :: [c1] :: seq :: [a1] :: w1 :: [i1] :: tI :: ['.'] :: [f1] :: tF ::
        [a2] :: w2 :: ['D'] :: ['T'] :: [a3] :: w3 :: [k1] :: chan :: [a4] :: w4 ::
        [x1] :: fid :: [a5] :: w5 :: ['R'] :: ['x'] :: [a6] :: w6 :: [n1] :: len ::
        [a7] :: w7 :: [[p1], pl]) := hm
  simp only [parseLine]
  rw [hm2]
  simp [cap, pattern_v2, plusG, starG, litG]

theorem parseLine_v3
    (lead seq w1 tI tF w2 w3 chan w4 fid w5 w6 w7 len w8 pl : List Char)
    (hlead : ∀ c ∈ lead, isSpacePy c = true)
    (hseq : seq ≠ []) (hseqD : ∀ c ∈ seq, isDigitC c = true)
    (hw1 : w1 ≠ []) (hw1S : ∀ c ∈ w1, isSpacePy c = true)
    (htI : tI ≠ []) (htID : ∀ c ∈ tI, isDigitC c = true)
    (htF : tF ≠ []) (htFD : ∀ c ∈ tF, isDigitC c = true)
    (hw2 : w2 ≠ []) (hw2S : ∀ c ∈ w2, isSpacePy c = true)
    (hw3 : w3 ≠ []) (hw3S : ∀ c ∈ w3, isSpacePy c = true)
    (hchan : chan ≠ []) (hchanD : ∀ c ∈ chan, isDigitC c = true)
    (hw4 : w4 ≠ []) (hw4S : ∀ c ∈ w4, isSpacePy c = true)
    (hfid : fid ≠ []) (hfidH : ∀ c ∈ fid, isHexC c = true)
    (hw5 : w5 ≠ []) (hw5S : ∀ c ∈ w5, isSpacePy c = true)
    (hw6 : w6 ≠ []) (hw6S : ∀ c ∈ w6, isSpacePy c = true)
    (hw7 : w7 ≠ []) (hw7S : ∀ c ∈ w7, isSpacePy c = true)
    (hlen : len ≠ []) (hlenD : ∀ c ∈ len, isDigitC c = true)
    (hw8 : w8 ≠ []) (hw8S : ∀ c ∈ w8, isSpacePy c = true)
    (hpl : pl ≠ []) (hplH : ∀ c ∈ pl, isHexSp c = true) (hpl0 : HeadNot isSpacePy pl) :
    parseLine pattern_v3 (String.mk (mkV3 lead seq w1 tI tF w2 w3 chan w4 fid w5 w6 w7 len w8 pl)) =
      some { ts := ratOfDecimal (tI ++ '.' :: tF), fid := hexValN fid, payload := pstrip pl } := by
  obtain ⟨c1, seq, rfl⟩ := List.exists_cons_of_ne_nil hseq
  obtain ⟨a1, w1, rfl⟩ := List.exists_cons_of_ne_nil hw1
  obtain ⟨i1, tI, rfl⟩ := List.exists_cons_of_ne_nil htI
  obtain ⟨f1, tF, rfl⟩ := List.exists_cons_of_ne_nil htF
  obtain ⟨a2, w2, rfl⟩ := List.exists_cons_of_ne_nil hw2
  obtain ⟨a3, w3, rfl⟩ := List.exists_cons_of_ne_nil hw3
  obtain ⟨k1, chan, rfl⟩ := List.exists_cons_of_ne_nil hchan
  obtain ⟨a4, w4, rfl⟩ := List.exists_cons_of_ne_nil hw4
  obtain ⟨x1, fid, rfl⟩ := List.exists_cons_of_ne_nil hfid
  obtain ⟨a5, w5, rfl⟩ := List.exists_cons_of_ne_nil hw5
  obtain ⟨a6, w6, rfl⟩ := List.exists_cons_of_ne_nil hw6
  obtain ⟨a7, w7, rfl⟩ := List.exists_cons_of_ne_nil hw7
  obtain ⟨n1, len, rfl⟩ := List.exists_cons_of_ne_nil hlen
  obtain ⟨a8, w8, rfl⟩ := List.exists_cons_of_ne_nil hw8
  obtain ⟨p1, pl, rfl⟩ := List.exists_cons_of_ne_nil hpl
  have hPl : reM [(some 4, RTok.cls isHexSp), (some 4, RTok.star isHexSp)] (p1 :: pl) =
      some [[p1], pl] := by
    have := reM_plus (some 4) (some 4) isHexSp [] p1 pl [] []
      (hplH p1 (by simp)) (fun c hc => hplH c (by simp [hc])) (headNot_nil _) rfl
    simpa using this
  have hW8 := reM_plus none none isSpacePy _ a8 w8 _ _
    (hw8S a8 (by simp)) (fun c hc => hw8S c (by simp [hc])) hpl0 hPl
  have hLen := reM_plus (some 3) (some 3) isDigitC _ n1 len _ _
    (hlenD n1 (by simp)) (fun c hc => hlenD c (by simp [hc]))
    (headNot_cons _ (not_digit_of_space a8 (hw8S a8 (by simp)))) hW8
  have hW7 := reM_plus none none isSpacePy _ a7 w7 _ _
    (hw7S a7 (by simp)) (fun c hc => hw7S c (by simp [hc]))
    (headNot_cons _ (not_space_of_digit n1 (hlenD n1 (by simp)))) hLen
  have hDash := reM_lit none '-' _ _ _ hW7
  have hW6 := reM_plus none none isSpacePy _ a6 w6 _ _
    (hw6S a6 (by simp)) (fun c hc => hw6S c (by simp [hc]))
    (headNot_cons _ (show isSpacePy '-' = false by decide)) hDash
  have hLx := reM_lit none 'x' _ _ _ hW6
  have hLR := reM_lit none 'R' _ _ _ hLx
  have hW5 := reM_plus none none isSpacePy _ a5 w5 _ _
    (hw5S a5 (by simp)) (fun c hc => hw5S c (by simp [hc]))
    (headNot_cons _ (show isSpacePy 'R' = false by decide)) hLR
  have hFid := reM_plus (some 2) (some 2) isHexC _ x1 fid _ _
    (hfidH x1 (by simp)) (fun c hc => hfidH c (by simp [hc]))
    (headNot_cons _ (not_hex_of_space a5 (hw5S a5 (by simp)))) hW5
  have hW4 := reM_plus none none isSpacePy _ a4 w4 _ _
    (hw4S a4 (by simp)) (fun c hc => hw4S c (by simp [hc]))
    (headNot_cons _ (not_space_of_hex x1 (hfidH x1 (by simp)))) hFid
  have hChan := reM_plus none none isDigitC _ k1 chan _ _
    (hchanD k1 (by simp)) (fun c hc => hchanD c (by simp [hc]))
    (headNot_cons _ (not_digit_of_space a4 (hw4S a4 (by simp)))) hW4
  have hW3 := reM_plus none none isSpacePy _ a3 w3 _ _
    (hw3S a3 (by simp)) (fun c hc => hw3S c (by simp [hc]))
    (headNot_cons _ (not_space_of_digit k1 (hchanD k1 (by simp)))) hChan
  have hLT := reM_lit none 'T' _ _ _ hW3
  have hLD := reM_lit none 'D' _ _ _ hLT
  have hW2 := reM_plus none none isSpacePy _ a2 w2 _ _
    (hw2S a2 (by simp)) (fun c hc => hw2S c (by simp [hc]))
    (headNot_cons _ (show isSpacePy 'D' = false by decide)) hLD
  have hTF := reM_plus (some 1) (some 1) isDigitC _ f1 tF _ _
    (htFD f1 (by simp)) (fun c hc => htFD c (by simp [hc]))
    (headNot_cons _ (not_digit_of_space a2 (hw2S a2 (by simp)))) hW2
  have hDot := reM_lit (some 1) '.' _ _ _ hTF
  have hTI := reM_plus (some 1) (some 1) isDigitC _ i1 tI _ _
    (htID i1 (by simp)) (fun c hc => htID c (by simp [hc]))
    (headNot_cons _ (show isDigitC '.' = false by decide)) hDot
  have hW1 := reM_plus none none isSpacePy _ a1 w1 _ _
    (hw1S a1 (by simp)) (fun c hc => hw1S c (by simp [hc]))
    (headNot_cons _ (not_space_of_digit i1 (htID i1 (by simp)))) hTI
  have hSeq := reM_plus none none isDigitC _ c1 seq _ _
    (hseqD c1 (by simp)) (fun c hc => hseqD c (by simp [hc]))
    (headNot_cons _ (not_digit_of_space a1 (hw1S a1 (by simp)))) hW1
  have hm := reM_star none isSpacePy _ lead _ _ hlead
    (headNot_cons _ (not_space_of_digit c1 (hseqD c1 (List.mem_cons_self c1 seq)))) hSeq
  have hm2 : reM pattern_v3 (String.mk (mkV3 lead (c1 :: seq) (a1 :: w1) (i1 :: tI) (f1 :: tF)
      (a2 :: w2) (a3 :: w3) (k1 :: chan) (a4 :: w4) (x1 :: fid) (a5 :: w5) (a6 :: w6)
      (a7 :: w7) (n1 :: len) (a8 :: w8) (p1 :: pl))).data =
      some (lead :: [c1] :: seq :: [a1] :: w1 :: [i1] :: tI :: ['.'] :: [f1] :: tF ::
        [a2] :: w2 :: ['D'] :: ['T'] :: [a3] :: w3 :: [k1] :: chan :: [a4] :: w4 ::
        [x1] :: fid :: [a5] :: w5 :: ['R'] :: ['x'] :: [a6] :: w6 :: ['-'] :: [a7] :: w7 ::
        [n1] :: len :: [a8] :: w8 :: [[p1], pl]) := hm
  simp only [parseLine]
  rw [hm2]
  simp [cap, pattern_v3, plusG, starG, litG]

/-! ## Payload tokens: joining with single spaces, splitting, stripping -/

/-- Join payload byte tokens with single spaces (one well-formed payload
text among those the grammars accept). -/
def joinToks : List (List Char) → List Char
  | [] => []
  | [t] => t
  | t :: ts => t ++ ' ' :: joinToks ts

theorem headNot_of_all {p : Char → Bool} (s : List Char)
    (h : ∀ c ∈ s, p c = false) : HeadNot p s := by
  intro c hc
  cases s with
  | nil => simp at hc
  | cons d s' =>
    simp at hc
    exact hc ▸ h d (by simp)

theorem headNot_append_left {p : Char → Bool} (a b : List Char)
    (ha : a ≠ []) (h : HeadNot p a) : HeadNot p (a ++ b) := by
  cases a with
  | nil => exact absurd rfl ha
  | cons x a' =>
    intro c hc
    simp at hc
    exact hc ▸ h x rfl

theorem joinToks_ne_nil (toks : List (List Char)) (h0 : toks ≠ [])
    (h1 : ∀ t ∈ toks, t ≠ []) : joinToks toks ≠ [] := by
  match toks with
  | [] => exact absurd rfl h0
  | [t] => exact h1 t (by simp)
  | t :: t2 :: ts =>
    have := h1 t (by simp)
    simp [joinToks]

theorem mem_joinToks (toks : List (List Char)) (c : Char) (hc : c ∈ joinToks toks)
    (h : ∀ t ∈ toks, ∀ c ∈ t, isHexC c = true) : isHexSp c = true := by
  match toks with
  | [] => simp [joinToks] at hc
  | [t] =>
    simp [joinToks] at hc
    simp [isHexSp, h t (by simp) c hc]
  | t :: t2 :: ts =>
    simp only [joinToks, List.mem_append, List.mem_cons] at hc
    rcases hc with hc | hc | hc
    · simp [isHexSp, h t (by simp) c hc]
    · subst hc; decide
    · exact mem_joinToks (t2 :: ts) c hc (fun u hu => h u (by simp [hu]))

theorem headNot_space_joinToks (toks : List (List Char)) (h0 : toks ≠ [])
    (h1 : ∀ t ∈ toks, t ≠ []) (h : ∀ t ∈ toks, ∀ c ∈ t, isHexC c = true) :
    HeadNot isSpacePy (joinToks toks) := by
  match toks with
  | [] => exact absurd rfl h0
  | [t] =>
    simp only [joinToks]
    exact headNot_of_all t (fun c hc => not_space_of_hex c (h t (by simp) c hc))
  | t :: t2 :: ts =>
    simp only [joinToks]
    exact headNot_append_left t _ (h1 t (by simp))
      (headNot_of_all t (fun c hc => not_space_of_hex c (h t (by simp) c hc)))

theorem headNot_space_joinToks_reverse (toks : List (List Char)) (h0 : toks ≠ [])
    (h1 : ∀ t ∈ toks, t ≠ []) (h : ∀ t ∈ toks, ∀ c ∈ t, isHexC c = true) :
    HeadNot isSpacePy (joinToks toks).reverse := by
  match toks with
  | [] => exact absurd rfl h0
  | [t] =>
    simp only [joinToks]
    refine headNot_of_all t.reverse (fun c hc => ?_)
    rw [List.mem_reverse] at hc
    exact not_space_of_hex c (h t (by simp) c hc)
  | t :: t2 :: ts =>
    have ih := headNot_space_joinToks_reverse (t2 :: ts) (by simp)
      (fun u hu => h1 u (by simp [hu]))
      (fun u hu => h u (by simp [hu]))
    have hne : (joinToks (t2 :: ts)).reverse ≠ [] := by
      simp only [ne_eq, List.reverse_eq_nil_iff]
      exact joinToks_ne_nil (t2 :: ts) (by simp) (fun u hu => h1 u (by simp [hu]))
    simp only [joinToks, List.reverse_append, List.reverse_cons]
    rw [List.append_assoc]
    exact headNot_append_left _ _ hne ih

theorem pstrip_eq_self (cs : List Char) (h1 : HeadNot isSpacePy cs)
    (h2 : HeadNot isSpacePy cs.reverse) : pstrip cs = cs := by
  have d1 : cs.dropWhile isSpacePy = cs := by
    cases cs with
    | nil => rfl
    | cons c cs' => simp [List.dropWhile, h1 c rfl]
  have d2 : cs.reverse.dropWhile isSpacePy = cs.reverse := by
    cases hr : cs.reverse with
    | nil => rfl
    | cons c cr =>
      rw [hr] at h2
      simp [List.dropWhile, h2 c rfl]
  simp [pstrip, d1, d2]

theorem pstrip_joinToks (toks : List (List Char)) (h0 : toks ≠ [])
    (h1 : ∀ t ∈ toks, t ≠ []) (h : ∀ t ∈ toks, ∀ c ∈ t, isHexC c = true) :
    pstrip (joinToks toks) = joinToks toks :=
  pstrip_eq_self _ (headNot_space_joinToks toks h0 h1 h)
    (headNot_space_joinToks_reverse toks h0 h1 h)

theorem splitWsAux_nonspace (c : Char) (cs acc : List Char) (hc : isSpacePy c = false) :
    splitWsAux (c :: cs) acc = splitWsAux cs (c :: acc) := by
  rw [splitWsAux, hc]
  simp

theorem splitWsAux_space_acc (c d : Char) (cs r : List Char) (hc : isSpacePy c = true) :
    splitWsAux (c :: cs) (d :: r) = (d :: r).reverse :: splitWsAux cs [] := by
  rw [splitWsAux, hc]
  simp

theorem splitWsAux_nil_acc (d : Char) (r : List Char) :
    splitWsAux [] (d :: r) = [(d :: r).reverse] := by
  rw [splitWsAux]
  simp

theorem splitWsAux_token (tok s acc : List Char)
    (htok : ∀ c ∈ tok, isSpacePy c = false) :
    splitWsAux (tok ++ s) acc = splitWsAux s (tok.reverse ++ acc) := by
  induction tok generalizing acc with
  | nil => simp
  | cons c tok ih =>
    rw [List.cons_append, splitWsAux_nonspace c _ acc (htok c (by simp)),
      ih (c :: acc) (fun d hd => htok d (by simp [hd]))]
    simp

theorem splitWs_joinToks (toks : List (List Char))
    (h1 : ∀ t ∈ toks, t ≠ [])
    (h2 : ∀ t ∈ toks, ∀ c ∈ t, isSpacePy c = false) :
    splitWs (joinToks toks) = toks := by
  match toks with
  | [] => rfl
  | [t] =>
    obtain ⟨c, t2, rfl⟩ := List.exists_cons_of_ne_nil (h1 t (by simp))
    have h := splitWsAux_token (c :: t2) [] [] (h2 _ (by simp))
    rw [List.append_nil] at h
    show splitWsAux (c :: t2) [] = [c :: t2]
    rw [h, List.append_nil]
    have hne : (c :: t2).reverse ≠ [] := by simp
    obtain ⟨d, r, hdr⟩ := List.exists_cons_of_ne_nil hne
    rw [hdr, splitWsAux_nil_acc, ← hdr]
    simp
  | t :: u :: ts =>
    obtain ⟨c, t2, rfl⟩ := List.exists_cons_of_ne_nil (h1 t (by simp))
    have h := splitWsAux_token (c :: t2) (' ' :: joinToks (u :: ts)) [] (h2 _ (by simp))
    rw [List.append_nil] at h
    show splitWsAux ((c :: t2) ++ ' ' :: joinToks (u :: ts)) [] = _
    rw [h]
    have hne : (c :: t2).reverse ≠ [] := by simp
    obtain ⟨d, r, hdr⟩ := List.exists_cons_of_ne_nil hne
    rw [hdr, splitWsAux_space_acc _ _ _ _ (by decide), ← hdr]
    simp only [List.reverse_reverse]
    have ihres := splitWs_joinToks (u :: ts) (fun v hv => h1 v (by simp [hv]))
      (fun v hv => h2 v (by simp [hv]))
    show (c :: t2) :: splitWs (joinToks (u :: ts)) = _
    rw [ihres]

/-! ## The decimal timestamp value -/

theorem beq_dot_false_of_digit (c : Char) (h : isDigitC c = true) : (c == '.') = false := by
  cases hc : c == '.' with
  | false => rfl
  | true =>
    have : c = '.' := eq_of_beq hc
    subst this
    cases h

theorem takeWhile_decimal (tI tF : List Char) (h : ∀ c ∈ tI, isDigitC c = true) :
    (tI ++ '.' :: tF).takeWhile (fun c => !(c == '.')) = tI := by
  induction tI with
  | nil => simp [List.takeWhile]
  | cons c tI ih =>
    have hc := beq_dot_false_of_digit c (h c (by simp))
    simp only [List.cons_append, List.takeWhile, hc]
    simp [ih (fun d hd => h d (by simp [hd]))]

theorem dropWhile_decimal (tI tF : List Char) (h : ∀ c ∈ tI, isDigitC c = true) :
    (tI ++ '.' :: tF).dropWhile (fun c => !(c == '.')) = '.' :: tF := by
  induction tI with
  | nil => simp [List.dropWhile]
  | cons c tI ih =>
    have hc := beq_dot_false_of_digit c (h c (by simp))
    simp only [List.cons_append, List.dropWhile, hc]
    simp [ih (fun d hd => h d (by simp [hd]))]

/-- Python `float` of a `\d+\.\d+` string is integer part plus fractional
part over the matching power of ten. -/
theorem ratOfDecimal_spec (tI tF : List Char) (h : ∀ c ∈ tI, isDigitC c = true) :
    ratOfDecimal (tI ++ '.' :: tF) =
      (natOfDigits tI : ℚ) + (natOfDigits tF : ℚ) / (10 : ℚ) ^ tF.length := by
  have hpow : ((10 : ℚ)) ^ tF.length ≠ 0 := by positivity
  unfold ratOfDecimal
  rw [takeWhile_decimal tI tF h, dropWhile_decimal tI tF h]
  simp only [List.drop_succ_cons, List.drop_zero]
  rw [Rat.mkRat_eq_div]
  push_cast
  field_simp

/-! ## Non-matching lines contribute nothing -/

theorem traceRecords_skip (pat : RPat) (line : String) (lines1 lines2 : List String)
    (h : parseLine pat line = none) :
    traceRecords pat (lines1 ++ line :: lines2) = traceRecords pat (lines1 ++ lines2) := by
  simp [traceRecords, List.filterMap_append, List.filterMap_cons, h]

/-! ## The column set of the result dict -/

/-- Distinct elements of a list, keeping the first occurrence of each, in
order — the key set produced by repeated `dict.setdefault`. -/
def firstDedup : List String → List String
  | [] => []
  | a :: l => a :: firstDedup (l.filter (fun s => !(s == a)))
termination_by l => l.length
decreasing_by
  simp only [List.length_cons]
  exact Nat.lt_succ_of_le (List.length_filter_le _ _)

theorem mem_firstDedup (s : String) (l : List String) : s ∈ firstDedup l ↔ s ∈ l := by
  induction l using firstDedup.induct with
  | case1 => simp [firstDedup]
  | case2 a l ih =>
    rw [firstDedup]
    by_cases hsa : s = a
    · simp [hsa]
    · simp only [List.mem_cons, hsa, false_or, ih, List.mem_filter]
      constructor
      · exact fun h => h.1
      · exact fun h => ⟨h, by simp [hsa]⟩

theorem nodup_firstDedup (l : List String) : (firstDedup l).Nodup := by
  induction l using firstDedup.induct with
  | case1 => simp [firstDedup]
  | case2 a l ih =>
    rw [firstDedup]
    refine List.Nodup.cons (fun hmem => ?_) ih
    rw [mem_firstDedup] at hmem
    rw [List.mem_filter] at hmem
    simp at hmem

theorem str_beq_symm (a b : String) : (a == b) = (b == a) := by
  rw [Bool.eq_iff_iff]
  simp only [beq_iff_eq]
  exact eq_comm

/-- Keys of the dict after `setdefault`-folding a list of signal names:
the old keys followed by the first-occurrence dedup of the new names not
already present. -/
theorem keys_foldl_setdefault (l : List String) (t : Table) (v : List Cell) :
    ((l.foldl (fun t s => setdefault t s v) t).map Prod.fst)
      = t.map Prod.fst ++ firstDedup (l.filter (fun s => !(t.any (fun c => c.1 == s)))) := by
  induction l generalizing t with
  | nil => simp [firstDedup]
  | cons a l ih =>
    rw [List.foldl_cons, List.filter_cons]
    by_cases ha : t.any (fun c => c.1 == a) = true
    · rw [show setdefault t a v = t from by simp [setdefault, ha]]
      rw [ih t]
      simp [ha]
    · have hsd : setdefault t a v = t ++ [(a, v)] := by simp [setdefault, ha]
      rw [hsd, ih]
      rw [Bool.not_eq_true] at ha
      simp only [ha, Bool.not_false, if_pos]
      rw [firstDedup]
      rw [List.filter_filter]
      simp only [List.map_append, List.map_cons, List.map_nil, List.append_assoc,
        List.cons_append, List.nil_append]
      congr 2
      congr 1
      apply List.filter_congr
      intro s _
      rw [List.any_append]
      simp only [List.any_cons, List.any_nil, Bool.or_false, Bool.not_or]
      rw [str_beq_symm s a, Bool.and_comm]

/-- The structural invariant of the result dict built by lines 45–48:
the `Timestamp` column is the timestamp list, every other column is the
`None` placeholder list, and a `Timestamp` key is always present. -/
def InitInv (tss : List ℚ) (t : Table) : Prop :=
  (∀ col ∈ t, col.1 = "Timestamp" → col.2 = tss.map (fun q => some q)) ∧
  (∀ col ∈ t, col.1 ≠ "Timestamp" → col.2 = List.replicate tss.length none) ∧
  (t.any (fun c => c.1 == "Timestamp") = true)

theorem initInv_foldl_setdefault (tss : List ℚ) (l : List String) (t : Table)
    (ht : InitInv tss t) :
    InitInv tss (l.foldl (fun t s => setdefault t s (List.replicate tss.length none)) t) := by
  induction l generalizing t with
  | nil => exact ht
  | cons a l ih =>
    rw [List.foldl_cons]
    apply ih
    by_cases ha : t.any (fun c => c.1 == a) = true
    · rw [show setdefault t a _ = t from by simp [setdefault, ha]]
      exact ht
    · have hsd : setdefault t a (List.replicate tss.length none) =
        t ++ [(a, List.replicate tss.length none)] := by simp [setdefault, ha]
      rw [hsd]
      have hane : a ≠ "Timestamp" := by
        intro h
        subst h
        exact ha ht.2.2
      refine ⟨?_, ?_, ?_⟩
      · intro col hcol h1
        rw [List.mem_append] at hcol
        rcases hcol with hcol | hcol
        · exact ht.1 col hcol h1
        · simp at hcol
          subst hcol
          exact absurd h1 hane
      · intro col hcol h1
        rw [List.mem_append] at hcol
        rcases hcol with hcol | hcol
        · exact ht.2.1 col hcol h1
        · simp at hcol
          subst hcol
          rfl
      · rw [List.any_append, ht.2.2]
        rfl

theorem initTable_inv (db : Db) (tss : List ℚ) : InitInv tss (initTable db tss) := by
  apply initInv_foldl_setdefault
  refine ⟨?_, ?_, ?_⟩
  · intro col hcol _
    simp at hcol
    rw [hcol]
  · intro col hcol h1
    simp at hcol
    subst hcol
    simp at h1
  · simp

theorem initTable_keys (db : Db) (tss : List ℚ) (hts : "Timestamp" ∉ allSigNames db) :
    (initTable db tss).map Prod.fst = "Timestamp" :: firstDedup (allSigNames db) := by
  rw [initTable, keys_foldl_setdefault]
  have : (allSigNames db).filter
      (fun s => !([("Timestamp", tss.map (fun q => some q))].any (fun c => c.1 == s)))
      = allSigNames db := by
    apply List.filter_eq_self.mpr
    intro s hs
    have hne : s ≠ "Timestamp" := fun h => hts (h ▸ hs)
    simp [Ne.symm hne]
  rw [this]
  rfl

theorem initTable_length (db : Db) (tss : List ℚ) :
    ∀ col ∈ initTable db tss, col.2.length = tss.length := by
  intro col hcol
  have hinv := initTable_inv db tss
  by_cases h : col.1 = "Timestamp"
  · rw [hinv.1 col hcol h]
    simp
  · rw [hinv.2.1 col hcol h]
    simp

/-! ## The decode loop: what it can and cannot touch -/

/-- Snapshot of row `j`: each column name with its cell at index `j`. -/
def rowSnap (t : Table) (j : Nat) : List (String × Option Cell) :=
  t.map (fun c => (c.1, c.2[j]?))

/-- Snapshot of the column names and lengths. -/
def lenSnap (t : Table) : List (String × Nat) :=
  t.map (fun c => (c.1, c.2.length))

theorem setCell_lenSnap (t : Table) (k : String) (i : Nat) (v : ℚ) :
    lenSnap (setCell t k i v) = lenSnap t := by
  simp only [lenSnap, setCell, List.map_map]
  apply List.map_congr_left
  intro c _
  by_cases h : c.1 = k <;> simp [h]

theorem foldl_setCell_lenSnap (kvs : List (String × ℚ)) (t : Table) (i : Nat) :
    lenSnap (kvs.foldl (fun t kv => setCell t kv.1 i kv.2) t) = lenSnap t := by
  induction kvs generalizing t with
  | nil => rfl
  | cons kv kvs ih => rw [List.foldl_cons, ih, setCell_lenSnap]

theorem scatterOne_lenSnap (db : Db) (t : Table) (i : Nat) (r : TraceRecord) (u : Table)
    (h : scatterOne db t i r = Except.ok u) : lenSnap u = lenSnap t := by
  unfold scatterOne at h
  split at h
  · cases h; rfl
  · split at h
    · cases h
    · split at h
      · cases h
      · cases h
        exact foldl_setCell_lenSnap _ t i

theorem scatterAll_lenSnap (db : Db) (rs : List TraceRecord) (t : Table) (i : Nat) (u : Table)
    (h : scatterAll db t i rs = Except.ok u) : lenSnap u = lenSnap t := by
  induction rs generalizing t i with
  | nil => cases h; rfl
  | cons r rs ih =>
    unfold scatterAll at h
    cases h1 : scatterOne db t i r with
    | error e => rw [h1] at h; cases h
    | ok t2 =>
      rw [h1] at h
      rw [ih t2 (i + 1) h, scatterOne_lenSnap db t i r t2 h1]

theorem setCell_rowSnap (t : Table) (k : String) (i : Nat) (v : ℚ) (j : Nat) (hij : i ≠ j) :
    rowSnap (setCell t k i v) j = rowSnap t j := by
  simp only [rowSnap, setCell, List.map_map]
  apply List.map_congr_left
  intro c _
  by_cases h : c.1 = k <;> simp [h, List.getElem?_set_ne hij]

theorem foldl_setCell_rowSnap (kvs : List (String × ℚ)) (t : Table) (i j : Nat) (hij : i ≠ j) :
    rowSnap (kvs.foldl (fun t kv => setCell t kv.1 i kv.2) t) j = rowSnap t j := by
  induction kvs generalizing t with
  | nil => rfl
  | cons kv kvs ih => rw [List.foldl_cons, ih, setCell_rowSnap _ _ _ _ _ hij]

theorem scatterOne_rowSnap (db : Db) (t : Table) (i : Nat) (r : TraceRecord) (u : Table)
    (j : Nat) (hij : i ≠ j) (h : scatterOne db t i r = Except.ok u) :
    rowSnap u j = rowSnap t j := by
  unfold scatterOne at h
  split at h
  · cases h; rfl
  · split at h
    · cases h
    · split at h
      · cases h
      · cases h
        exact foldl_setCell_rowSnap _ t i j hij

/-- Rows outside the index range of the processed sublist are untouched
by the decode loop. -/
theorem scatterAll_rowSnap (db : Db) (rs : List TraceRecord) (t : Table) (i0 : Nat) (u : Table)
    (j : Nat) (hj : j < i0 ∨ i0 + rs.length ≤ j) (h : scatterAll db t i0 rs = Except.ok u) :
    rowSnap u j = rowSnap t j := by
  induction rs generalizing t i0 with
  | nil => cases h; rfl
  | cons r rs ih =>
    unfold scatterAll at h
    cases h1 : scatterOne db t i0 r with
    | error e => rw [h1] at h; cases h
    | ok t2 =>
      rw [h1] at h
      have hij : i0 ≠ j := by
        rcases hj with hj | hj
        · omega
        · simp only [List.length_cons] at hj; omega
      have hj2 : j < i0 + 1 ∨ (i0 + 1) + rs.length ≤ j := by
        rcases hj with hj | hj
        · left; omega
        · right; simp only [List.length_cons] at hj; omega
      rw [ih t2 (i0 + 1) hj2 h, scatterOne_rowSnap db t i0 r t2 j hij h1]

/-- Splitting the decode loop at a list split. -/
theorem scatterAll_ok_append (db : Db) (l1 l2 : List TraceRecord) (t : Table) (i0 : Nat)
    (u : Table) (h : scatterAll db t i0 (l1 ++ l2) = Except.ok u) :
    ∃ u1, scatterAll db t i0 l1 = Except.ok u1 ∧
      scatterAll db u1 (i0 + l1.length) l2 = Except.ok u := by
  induction l1 generalizing t i0 with
  | nil =>
    refine ⟨t, rfl, ?_⟩
    simpa using h
  | cons r l1 ih =>
    rw [List.cons_append] at h
    unfold scatterAll at h
    cases h1 : scatterOne db t i0 r with
    | error e => rw [h1] at h; cases h
    | ok t2 =>
      rw [h1] at h
      obtain ⟨u1, hu1, hu2⟩ := ih t2 (i0 + 1) h
      refine ⟨u1, ?_, ?_⟩
      · show (match scatterOne db t i0 r with
          | Except.error e => Except.error e
          | Except.ok u2 => scatterAll db u2 (i0 + 1) l1) = Except.ok u1
        rw [h1]
        exact hu1
      · rw [show i0 + (r :: l1).length = (i0 + 1) + l1.length by
          simp only [List.length_cons]; omega]
        exact hu2

theorem mem_set_elim {α : Type} {l : List α} {i : Nat} {a x : α} (h : x ∈ l.set i a) :
    x = a ∨ x ∈ l :=
  Or.symm (List.mem_or_eq_of_mem_set h)

/-- All-`some` cells of the `Timestamp` columns survive the decode loop
(a write only ever stores `some`). -/
def TsSome (t : Table) : Prop :=
  ∀ col ∈ t, col.1 = "Timestamp" → ∀ x ∈ col.2, x.isSome = true

theorem setCell_tsSome (t : Table) (k : String) (i : Nat) (v : ℚ) (h : TsSome t) :
    TsSome (setCell t k i v) := by
  intro col hcol h1 x hx
  simp only [setCell, List.mem_map] at hcol
  obtain ⟨c, hc, hceq⟩ := hcol
  by_cases hk : c.1 = k
  · rw [if_pos (by simp [hk] : (c.1 == k) = true)] at hceq
    rw [← hceq] at h1 hx
    simp only at h1 hx
    rcases mem_set_elim hx with hx | hx
    · rw [hx]; rfl
    · exact h c hc h1 x hx
  · rw [if_neg (by simp [hk] : ¬ (c.1 == k) = true)] at hceq
    rw [← hceq] at h1 hx
    exact h c hc h1 x hx

theorem foldl_setCell_tsSome (kvs : List (String × ℚ)) (t : Table) (i : Nat) (h : TsSome t) :
    TsSome (kvs.foldl (fun t kv => setCell t kv.1 i kv.2) t) := by
  induction kvs generalizing t with
  | nil => exact h
  | cons kv kvs ih => exact ih _ (setCell_tsSome _ _ _ _ h)

theorem scatterOne_tsSome (db : Db) (t : Table) (i : Nat) (r : TraceRecord) (u : Table)
    (h : scatterOne db t i r = Except.ok u) (ht : TsSome t) : TsSome u := by
  unfold scatterOne at h
  split at h
  · cases h; exact ht
  · split at h
    · cases h
    · split at h
      · cases h
      · cases h
        exact foldl_setCell_tsSome _ t i ht

theorem scatterAll_tsSome (db : Db) (rs : List TraceRecord) (t : Table) (i : Nat) (u : Table)
    (h : scatterAll db t i rs = Except.ok u) (ht : TsSome t) : TsSome u := by
  induction rs generalizing t i with
  | nil => cases h; exact ht
  | cons r rs ih =>
    unfold scatterAll at h
    cases h1 : scatterOne db t i r with
    | error e => rw [h1] at h; cases h
    | ok t2 => rw [h1] at h; exact ih t2 (i + 1) h (scatterOne_tsSome db t i r t2 h1 ht)

/-- A record with a known frame id and an over-255 payload token makes
the decode loop fail, wherever it sits. -/
theorem scatterAll_error_of_bad (db : Db) (rs : List TraceRecord) (r : TraceRecord)
    (hr : r ∈ rs) (m : Message) (hm : getMessageByFrameId db r.fid = some m)
    (hbad : payloadBytes r.payload = none) :
    ∀ t i, ∃ e, scatterAll db t i rs = Except.error e := by
  induction rs with
  | nil => simp at hr
  | cons r0 rs ih =>
    intro t i
    rcases List.mem_cons.mp hr with hr0 | hrs
    · subst hr0
      refine ⟨DecErr.byteRange, ?_⟩
      unfold scatterAll scatterOne
      rw [hm, hbad]
    · unfold scatterAll
      cases h1 : scatterOne db t i r0 with
      | error e => exact ⟨e, rfl⟩
      | ok t2 =>
        obtain ⟨e, he⟩ := ih hrs t2 (i + 1)
        exact ⟨e, he⟩

/-! ## Well-formed token payloads through each grammar -/

/-- Well-formedness of a payload token list: at least one token, every
token a nonempty string of hexadecimal digits. -/
def ToksWF (toks : List (List Char)) : Prop :=
  toks ≠ [] ∧ (∀ t ∈ toks, t ≠ []) ∧ (∀ t ∈ toks, ∀ c ∈ t, isHexC c = true)

theorem toksWF_pl_ne_nil {toks : List (List Char)} (h : ToksWF toks) : joinToks toks ≠ [] :=
  joinToks_ne_nil toks h.1 h.2.1

theorem toksWF_pl_hexsp {toks : List (List Char)} (h : ToksWF toks) :
    ∀ c ∈ joinToks toks, isHexSp c = true :=
  fun c hc => mem_joinToks toks c hc h.2.2

theorem toksWF_pl_head {toks : List (List Char)} (h : ToksWF toks) :
    HeadNot isSpacePy (joinToks toks) :=
  headNot_space_joinToks toks h.1 h.2.1 h.2.2

theorem toksWF_pstrip {toks : List (List Char)} (h : ToksWF toks) :
    pstrip (joinToks toks) = joinToks toks :=
  pstrip_joinToks toks h.1 h.2.1 h.2.2

theorem toksWF_split {toks : List (List Char)} (h : ToksWF toks) :
    splitWs (joinToks toks) = toks :=
  splitWs_joinToks toks h.2.1
    (fun t ht c hc => not_space_of_hex c (h.2.2 t ht c hc))

theorem parseLine_v1_joinToks
    (lead seq w1 tI tF w2 dir w3 fid w4 len w5 : List Char) (toks : List (List Char))
    (hlead : ∀ c ∈ lead, isSpacePy c = true)
    (hseq : seq ≠ []) (hseqD : ∀ c ∈ seq, isDigitC c = true)
    (hw1 : w1 ≠ []) (hw1S : ∀ c ∈ w1, isSpacePy c = true)
    (htI : tI ≠ []) (htID : ∀ c ∈ tI, isDigitC c = true)
    (htF : tF ≠ []) (htFD : ∀ c ∈ tF, isDigitC c = true)
    (hw2 : w2 ≠ []) (hw2S : ∀ c ∈ w2, isSpacePy c = true)
    (hdir : dir ≠ []) (hdirW : ∀ c ∈ dir, isWordPy c = true)
    (hw3 : w3 ≠ []) (hw3S : ∀ c ∈ w3, isSpacePy c = true)
    (hfid : fid ≠ []) (hfidH : ∀ c ∈ fid, isHexC c = true)
    (hw4 : w4 ≠ []) (hw4S : ∀ c ∈ w4, isSpacePy c = true)
    (hlen : len ≠ []) (hlenD : ∀ c ∈ len, isDigitC c = true)
    (hw5 : w5 ≠ []) (hw5S : ∀ c ∈ w5, isSpacePy c = true)
    (htoks : ToksWF toks) :
    parseLine pattern_v1
      (String.mk (mkV1 lead seq w1 tI tF w2 dir w3 fid w4 len w5 (joinToks toks))) =
    some { ts := (natOfDigits tI : ℚ) + (natOfDigits tF : ℚ) / (10 : ℚ) ^ tF.length
         , fid := hexValN fid, payload := joinToks toks } := by
  rw [parseLine_v1 lead seq w1 tI tF w2 dir w3 fid w4 len w5 (joinToks toks)
    hlead hseq hseqD hw1 hw1S htI htID htF htFD hw2 hw2S hdir hdirW hw3 hw3S hfid hfidH
    hw4 hw4S hlen hlenD hw5 hw5S
    (toksWF_pl_ne_nil htoks) (toksWF_pl_hexsp htoks) (toksWF_pl_head htoks)]
  rw [ratOfDecimal_spec tI tF htID, toksWF_pstrip htoks]

theorem parseLine_v2_joinToks
    (lead seq w1 tI tF w2 w3 chan w4 fid w5 w6 len w7 : List Char) (toks : List (List Char))
    (hlead : ∀ c ∈ lead, isSpacePy c = true)
    (hseq : seq ≠ []) (hseqD : ∀ c ∈ seq, isDigitC c = true)
    (hw1 : w1 ≠ []) (hw1S : ∀ c ∈ w1, isSpacePy c = true)
    (htI : tI ≠ []) (htID : ∀ c ∈ tI, isDigitC c = true)
    (htF : tF ≠ []) (htFD : ∀ c ∈ tF, isDigitC c = true)
    (hw2 : w2 ≠ []) (hw2S : ∀ c ∈ w2, isSpacePy c = true)
    (hw3 : w3 ≠ []) (hw3S : ∀ c ∈ w3, isSpacePy c = true)
    (hchan : chan ≠ []) (hchanD : ∀ c ∈ chan, isDigitC c = true)
    (hw4 : w4 ≠ []) (hw4S : ∀ c ∈ w4, isSpacePy c = true)
    (hfid : fid ≠ []) (hfidH : ∀ c ∈ fid, isHexC c = true)
    (hw5 : w5 ≠ []) (hw5S : ∀ c ∈ w5, isSpacePy c = true)
    (hw6 : w6 ≠ []) (hw6S : ∀ c ∈ w6, isSpacePy c = true)
    (hlen : len ≠ []) (hlenD : ∀ c ∈ len, isDigitC c = true)
    (hw7 : w7 ≠ []) (hw7S : ∀ c ∈ w7, isSpacePy c = true)
    (htoks : ToksWF toks) :
    parseLine pattern_v2
      (String.mk (mkV2 lead seq w1 tI tF w2 w3 chan w4 fid w5 w6 len w7 (joinToks toks))) =
    some { ts := (natOfDigits tI : ℚ) + (natOfDigits tF : ℚ) / (10 : ℚ) ^ tF.length
         , fid := hexValN fid, payload := joinToks toks } := by
  rw [parseLine_v2 lead seq w1 tI tF w2 w3 chan w4 fid w5 w6 len w7 (joinToks toks)
    hlead hseq hseqD hw1 hw1S htI htID htF htFD hw2 hw2S hw3 hw3S hchan hchanD hw4 hw4S
    hfid hfidH hw5 hw5S hw6 hw6S hlen hlenD hw7 hw7S
    (toksWF_pl_ne_nil htoks) (toksWF_pl_hexsp htoks) (toksWF_pl_head htoks)]
  rw [ratOfDecimal_spec tI tF htID, toksWF_pstrip htoks]

theorem parseLine_v3_joinToks
    (lead seq w1 tI tF w2 w3 chan w4 fid w5 w6 w7 len w8 : List Char) (toks : List (List Char))
    (hlead : ∀ c ∈ lead, isSpacePy c = true)
    (hseq : seq ≠ []) (hseqD : ∀ c ∈ seq, isDigitC c = true)
    (hw1 : w1 ≠ []) (hw1S : ∀ c ∈ w1, isSpacePy c = true)
    (htI : tI ≠ []) (htID : ∀ c ∈ tI, isDigitC c = true)
    (htF : tF ≠ []) (htFD : ∀ c ∈ tF, isDigitC c = true)
    (hw2 : w2 ≠ []) (hw2S : ∀ c ∈ w2, isSpacePy c = true)
    (hw3 : w3 ≠ []) (hw3S : ∀ c ∈ w3, isSpacePy c = true)
    (hchan : chan ≠ []) (hchanD : ∀ c ∈ chan, isDigitC c = true)
    (hw4 : w4 ≠ []) (hw4S : ∀ c ∈ w4, isSpacePy c = true)
    (hfid : fid ≠ []) (hfidH : ∀ c ∈ fid, isHexC c = true)
    (hw5 : w5 ≠ []) (hw5S : ∀ c ∈ w5, isSpacePy c = true)
    (hw6 : w6 ≠ []) (hw6S : ∀ c ∈ w6, isSpacePy c = true)
    (hw7 : w7 ≠ []) (hw7S : ∀ c ∈ w7, isSpacePy c = true)
    (hlen : len ≠ []) (hlenD : ∀ c ∈ len, isDigitC c = true)
    (hw8 : w8 ≠ []) (hw8S : ∀ c ∈ w8, isSpacePy c = true)
    (htoks : ToksWF toks) :
    parseLine pattern_v3
      (String.mk (mkV3 lead seq w1 tI tF w2 w3 chan w4 fid w5 w6 w7 len w8 (joinToks toks))) =
    some { ts := (natOfDigits tI : ℚ) + (natOfDigits tF : ℚ) / (10 : ℚ) ^ tF.length
         , fid := hexValN fid, payload := joinToks toks } := by
  rw [parseLine_v3 lead seq w1 tI tF w2 w3 chan w4 fid w5 w6 w7 len w8 (joinToks toks)
    hlead hseq hseqD hw1 hw1S htI htID htF htFD hw2 hw2S hw3 hw3S hchan hchanD hw4 hw4S
    hfid hfidH hw5 hw5S hw6 hw6S hw7 hw7S hlen hlenD hw8 hw8S
    (toksWF_pl_ne_nil htoks) (toksWF_pl_hexsp htoks) (toksWF_pl_head htoks)]
  rw [ratOfDecimal_spec tI tF htID, toksWF_pstrip htoks]

/-! ## Failure of the byte conversion -/

theorem mapM_option_none {α β : Type} (f : α → Option β) (l : List α) (x : α)
    (hx : x ∈ l) (hf : f x = none) : l.mapM f = none := by
  induction l with
  | nil => simp at hx
  | cons a l ih =>
    rcases List.mem_cons.mp hx with hx | hx
    · subst hx
      rw [List.mapM_cons, hf]
      rfl
    · rw [List.mapM_cons, ih hx]
      cases f a <;> rfl

theorem payloadBytes_none_of_big_token (payload tok : List Char)
    (htok : tok ∈ splitWs payload) (hval : 255 < hexValN tok) :
    payloadBytes payload = none := by
  apply mapM_option_none _ _ tok htok
  simp only []
  rw [if_neg (by omega)]

/-! ## Concrete database and trace of end-to-end scenario A

Modelled from the spec: the DBC input file of end-to-end scenario A (a
message with id `0x100` carrying one 16-bit little-endian signal `Speed`
with scale 0.1 and offset 0) and its decode function are external inputs
of the program, not code under `src/`; they are built here following the
spec's scenario description. -/

def speedMsg : Message where
  frame_id := 0x100
  signals := ["Speed"]
  decode := fun bs =>
    if bs.length = 2 then some [("Speed", mkRat (bs.getD 0 0 + 256 * bs.getD 1 0) 10)] else none
  hdec := by
    intro bs kvs h kv hkv
    simp only [] at h
    split at h <;> simp_all
    subst h
    simp only [List.mem_singleton] at hkv
    simp [hkv]

def speedDb : Db := { messages := [speedMsg] }

def c6Lines : List String :=
  [";$FILEVERSION=1.1", ";", ";", ";", ";", ";", ";", ";", ";", "1) 12.5 Rx 100 2 64 00"]


/-- C1: for each of the three supported trace grammars, every line of
that grammar's shape (leading whitespace, decimal fields, the
version-specific fixed tokens, a hexadecimal frame id and whitespace-
separated hexadecimal byte tokens) parses to the triple of decimal
timestamp value, hexadecimal frame id, and the payload tokens in
encountered order; and every line the selected grammar does not match is
skipped, contributing no record. -/
theorem c1_line_grammars_parse_and_skip
    (lead seq w1 tI tF w2 dir w3 chan w4 fid w5 w6 len w7 w8 : List Char)
    (toks : List (List Char))
    (hlead : ∀ c ∈ lead, isSpacePy c = true)
    (hseq : seq ≠ []) (hseqD : ∀ c ∈ seq, isDigitC c = true)
    (hw1 : w1 ≠ []) (hw1S : ∀ c ∈ w1, isSpacePy c = true)
    (htI : tI ≠ []) (htID : ∀ c ∈ tI, isDigitC c = true)
    (htF : tF ≠ []) (htFD : ∀ c ∈ tF, isDigitC c = true)
    (hw2 : w2 ≠ []) (hw2S : ∀ c ∈ w2, isSpacePy c = true)
    (hdir : dir ≠ []) (hdirW : ∀ c ∈ dir, isWordPy c = true)
    (hw3 : w3 ≠ []) (hw3S : ∀ c ∈ w3, isSpacePy c = true)
    (hchan : chan ≠ []) (hchanD : ∀ c ∈ chan, isDigitC c = true)
    (hw4 : w4 ≠ []) (hw4S : ∀ c ∈ w4, isSpacePy c = true)
    (hfid : fid ≠ []) (hfidH : ∀ c ∈ fid, isHexC c = true)
    (hw5 : w5 ≠ []) (hw5S : ∀ c ∈ w5, isSpacePy c = true)
    (hw6 : w6 ≠ []) (hw6S : ∀ c ∈ w6, isSpacePy c = true)
    (hlen : len ≠ []) (hlenD : ∀ c ∈ len, isDigitC c = true)
    (hw7 : w7 ≠ []) (hw7S : ∀ c ∈ w7, isSpacePy c = true)
    (hw8 : w8 ≠ []) (hw8S : ∀ c ∈ w8, isSpacePy c = true)
    (htoks : ToksWF toks) :
    (parseLine pattern_v1
        (String.mk (mkV1 lead seq w1 tI tF w2 dir w3 fid w4 len w5 (joinToks toks))) =
      some { ts := (natOfDigits tI : ℚ) + (natOfDigits tF : ℚ) / (10 : ℚ) ^ tF.length
           , fid := hexValN fid, payload := joinToks toks }) ∧
    (parseLine pattern_v2
        (String.mk (mkV2 lead seq w1 tI tF w2 w3 chan w4 fid w5 w6 len w7 (joinToks toks))) =
      some { ts := (natOfDigits tI : ℚ) + (natOfDigits tF : ℚ) / (10 : ℚ) ^ tF.length
           , fid := hexValN fid, payload := joinToks toks }) ∧
    (parseLine pattern_v3
        (String.mk (mkV3 lead seq w1 tI tF w2 w3 chan w4 fid w5 w6 w7 len w8 (joinToks toks))) =
      some { ts := (natOfDigits tI : ℚ) + (natOfDigits tF : ℚ) / (10 : ℚ) ^ tF.length
           , fid := hexValN fid, payload := joinToks toks }) ∧
    (splitWs (joinToks toks) = toks) ∧
    (∀ pat line lines1 lines2, parseLine pat line = none →
      traceRecords pat (lines1 ++ line :: lines2) = traceRecords pat (lines1 ++ lines2)) := by
  refine ⟨?_, ?_, ?_, toksWF_split htoks,
    fun pat line lines1 lines2 h => traceRecords_skip pat line lines1 lines2 h⟩
  · exact parseLine_v1_joinToks lead seq w1 tI tF w2 dir w3 fid w4 len w5 toks
      hlead hseq hseqD hw1 hw1S htI htID htF htFD hw2 hw2S hdir hdirW hw3 hw3S
      hfid hfidH hw4 hw4S hlen hlenD hw5 hw5S htoks
  · exact parseLine_v2_joinToks lead seq w1 tI tF w2 w3 chan w4 fid w5 w6 len w7 toks
      hlead hseq hseqD hw1 hw1S htI htID htF htFD hw2 hw2S hw3 hw3S hchan hchanD
      hw4 hw4S hfid hfidH hw5 hw5S hw6 hw6S hlen hlenD hw7 hw7S htoks
  · exact parseLine_v3_joinToks lead seq w1 tI tF w2 w3 chan w4 fid w5 w6 w7 len w8 toks
      hlead hseq hseqD hw1 hw1S htI htID htF htFD hw2 hw2S hw3 hw3S hchan hchanD
      hw4 hw4S hfid hfidH hw5 hw5S hw6 hw6S hw7 hw7S hlen hlenD hw8 hw8S htoks

/-- Concrete instantiation of the grammar theorem: a `1.1`-shape, a
`2.0`-shape and a `2.1`-shape line each parse to timestamp `1.5`, frame
id `0x1A`, payload tokens `64 00`, and a non-matching line is skipped. -/
theorem c1_witness :
    (parseLine pattern_v1
        (String.mk (mkV1 [] ['1'] [' '] ['1'] ['5'] [' '] ['R', 'x'] [' '] ['1', 'A'] [' ']
          ['2'] [' '] (joinToks [['6', '4'], ['0', '0']]))) =
      some { ts := (natOfDigits ['1'] : ℚ) + (natOfDigits ['5'] : ℚ) / (10 : ℚ) ^ (['5'] : List Char).length
           , fid := hexValN ['1', 'A'], payload := joinToks [['6', '4'], ['0', '0']] }) ∧
    (parseLine pattern_v2
        (String.mk (mkV2 [] ['1'] [' '] ['1'] ['5'] [' '] [' '] ['1'] [' '] ['1', 'A'] [' ']
          [' '] ['2'] [' '] (joinToks [['6', '4'], ['0', '0']]))) =
      some { ts := (natOfDigits ['1'] : ℚ) + (natOfDigits ['5'] : ℚ) / (10 : ℚ) ^ (['5'] : List Char).length
           , fid := hexValN ['1', 'A'], payload := joinToks [['6', '4'], ['0', '0']] }) ∧
    (parseLine pattern_v3
        (String.mk (mkV3 [] ['1'] [' '] ['1'] ['5'] [' '] [' '] ['1'] [' '] ['1', 'A'] [' ']
          [' '] [' '] ['2'] [' '] (joinToks [['6', '4'], ['0', '0']]))) =
      some { ts := (natOfDigits ['1'] : ℚ) + (natOfDigits ['5'] : ℚ) / (10 : ℚ) ^ (['5'] : List Char).length
           , fid := hexValN ['1', 'A'], payload := joinToks [['6', '4'], ['0', '0']] }) ∧
    (splitWs (joinToks [['6', '4'], ['0', '0']]) = [['6', '4'], ['0', '0']]) ∧
    (traceRecords pattern_v1 ([";x"] ++ ";y" :: ["1) 12.5 Rx 1A 2 64 00"]) =
      traceRecords pattern_v1 ([";x"] ++ ["1) 12.5 Rx 1A 2 64 00"])) := by
  have h := c1_line_grammars_parse_and_skip
    [] ['1'] [' '] ['1'] ['5'] [' '] ['R', 'x'] [' '] ['1'] [' '] ['1', 'A'] [' '] [' ']
    ['2'] [' '] [' '] [['6', '4'], ['0', '0']]
    (by decide) (by decide) (by decide) (by decide) (by decide) (by decide) (by decide)
    (by decide) (by decide) (by decide) (by decide) (by decide) (by decide) (by decide)
    (by decide) (by decide) (by decide) (by decide) (by decide) (by decide) (by decide)
    (by decide) (by decide) (by decide) (by decide) (by decide) (by decide) (by decide)
    (by decide) (by decide) (by decide)
    (⟨by decide, by decide, by decide⟩)
  exact ⟨h.1, h.2.1, h.2.2.1, h.2.2.2.1, h.2.2.2.2 pattern_v1 ";y" [";x"]
    ["1) 12.5 Rx 1A 2 64 00"] (by decide)⟩

/-- C2: the grammar is keyed on the version token of the
`;$FILEVERSION=` marker line among the first 10 lines: `1.1`, `2.0` and
`2.1` select their grammars, anything else — including a missing marker
line — selects the `2.1` grammar, and only the first 10 lines matter. -/
theorem c2_grammar_selection (lines : List String) :
    (fileVersion lines = "1.1" → selectPattern lines = pattern_v1) ∧
    (fileVersion lines = "2.0" → selectPattern lines = pattern_v2) ∧
    (fileVersion lines = "2.1" → selectPattern lines = pattern_v3) ∧
    (fileVersion lines ≠ "1.1" ∧ fileVersion lines ≠ "2.0" ∧ fileVersion lines ≠ "2.1" →
      selectPattern lines = pattern_v3) ∧
    ((lines.take 10).find? (fun l => infixOfB fileversionMarker l.data) = none →
      selectPattern lines = pattern_v3) ∧
    (selectPattern lines = selectPattern (lines.take 10)) := by
  refine ⟨?_, ?_, ?_, ?_, ?_, ?_⟩
  · intro h
    simp only [selectPattern, h]
    rfl
  · intro h
    simp only [selectPattern, h]
    rfl
  · intro h
    simp only [selectPattern, h]
    rfl
  · rintro ⟨h1, h2, h3⟩
    simp only [selectPattern, if_neg h1, if_neg h2, if_neg h3]
  · intro h
    have hfv : fileVersion lines = "" := by
      simp [fileVersion, versionLine, h, pstrip, afterLastEq]
    simp only [selectPattern, hfv]
    rfl
  · simp only [selectPattern, fileVersion, versionLine, List.take_take]
    rfl

/-- A trace whose marker line carries `1.1` selects the first grammar. -/
theorem c2_witness :
    fileVersion [";$FILEVERSION=1.1", ";", ";"] = "1.1" ∧
    selectPattern [";$FILEVERSION=1.1", ";", ";"] = pattern_v1 :=
  ⟨by decide, (c2_grammar_selection [";$FILEVERSION=1.1", ";", ";"]).1 (by decide)⟩

/-- C8: the declared data-length field is extracted by every grammar but
has no effect on the produced record: two lines differing only in that
field parse identically, and the payload token count is unrelated to the
field's value (the token list is arbitrary). -/
theorem c8_declared_length_ignored
    (lead seq w1 tI tF w2 dir w3 chan w4 fid w5 w6 len1 len2 w7 w8 : List Char)
    (toks : List (List Char))
    (hlead : ∀ c ∈ lead, isSpacePy c = true)
    (hseq : seq ≠ []) (hseqD : ∀ c ∈ seq, isDigitC c = true)
    (hw1 : w1 ≠ []) (hw1S : ∀ c ∈ w1, isSpacePy c = true)
    (htI : tI ≠ []) (htID : ∀ c ∈ tI, isDigitC c = true)
    (htF : tF ≠ []) (htFD : ∀ c ∈ tF, isDigitC c = true)
    (hw2 : w2 ≠ []) (hw2S : ∀ c ∈ w2, isSpacePy c = true)
    (hdir : dir ≠ []) (hdirW : ∀ c ∈ dir, isWordPy c = true)
    (hw3 : w3 ≠ []) (hw3S : ∀ c ∈ w3, isSpacePy c = true)
    (hchan : chan ≠ []) (hchanD : ∀ c ∈ chan, isDigitC c = true)
    (hw4 : w4 ≠ []) (hw4S : ∀ c ∈ w4, isSpacePy c = true)
    (hfid : fid ≠ []) (hfidH : ∀ c ∈ fid, isHexC c = true)
    (hw5 : w5 ≠ []) (hw5S : ∀ c ∈ w5, isSpacePy c = true)
    (hw6 : w6 ≠ []) (hw6S : ∀ c ∈ w6, isSpacePy c = true)
    (hlen1 : len1 ≠ []) (hlen1D : ∀ c ∈ len1, isDigitC c = true)
    (hlen2 : len2 ≠ []) (hlen2D : ∀ c ∈ len2, isDigitC c = true)
    (hw7 : w7 ≠ []) (hw7S : ∀ c ∈ w7, isSpacePy c = true)
    (hw8 : w8 ≠ []) (hw8S : ∀ c ∈ w8, isSpacePy c = true)
    (htoks : ToksWF toks) :
    (parseLine pattern_v1
        (String.mk (mkV1 lead seq w1 tI tF w2 dir w3 fid w4 len1 w5 (joinToks toks))) =
      parseLine pattern_v1
        (String.mk (mkV1 lead seq w1 tI tF w2 dir w3 fid w4 len2 w5 (joinToks toks)))) ∧
    (parseLine pattern_v2
        (String.mk (mkV2 lead seq w1 tI tF w2 w3 chan w4 fid w5 w6 len1 w7 (joinToks toks))) =
      parseLine pattern_v2
        (String.mk (mkV2 lead seq w1 tI tF w2 w3 chan w4 fid w5 w6 len2 w7 (joinToks toks)))) ∧
    (parseLine pattern_v3
        (String.mk (mkV3 lead seq w1 tI tF w2 w3 chan w4 fid w5 w6 w7 len1 w8 (joinToks toks))) =
      parseLine pattern_v3
        (String.mk (mkV3 lead seq w1 tI tF w2 w3 chan w4 fid w5 w6 w7 len2 w8 (joinToks toks)))) ∧
    (parseLine pattern_v1
        (String.mk (mkV1 lead seq w1 tI tF w2 dir w3 fid w4 len1 w5 (joinToks toks))) =
      some { ts := (natOfDigits tI : ℚ) + (natOfDigits tF : ℚ) / (10 : ℚ) ^ tF.length
           , fid := hexValN fid, payload := joinToks toks }) := by
  have h11 := parseLine_v1_joinToks lead seq w1 tI tF w2 dir w3 fid w4 len1 w5 toks
    hlead hseq hseqD hw1 hw1S htI htID htF htFD hw2 hw2S hdir hdirW hw3 hw3S
    hfid hfidH hw4 hw4S hlen1 hlen1D hw5 hw5S htoks
  have h12 := parseLine_v1_joinToks lead seq w1 tI tF w2 dir w3 fid w4 len2 w5 toks
    hlead hseq hseqD hw1 hw1S htI htID htF htFD hw2 hw2S hdir hdirW hw3 hw3S
    hfid hfidH hw4 hw4S hlen2 hlen2D hw5 hw5S htoks
  have h21 := parseLine_v2_joinToks lead seq w1 tI tF w2 w3 chan w4 fid w5 w6 len1 w7 toks
    hlead hseq hseqD hw1 hw1S htI htID htF htFD hw2 hw2S hw3 hw3S hchan hchanD
    hw4 hw4S hfid hfidH hw5 hw5S hw6 hw6S hlen1 hlen1D hw7 hw7S htoks
  have h22 := parseLine_v2_joinToks lead seq w1 tI tF w2 w3 chan w4 fid w5 w6 len2 w7 toks
    hlead hseq hseqD hw1 hw1S htI htID htF htFD hw2 hw2S hw3 hw3S hchan hchanD
    hw4 hw4S hfid hfidH hw5 hw5S hw6 hw6S hlen2 hlen2D hw7 hw7S htoks
  have h31 := parseLine_v3_joinToks lead seq w1 tI tF w2 w3 chan w4 fid w5 w6 w7 len1 w8 toks
    hlead hseq hseqD hw1 hw1S htI htID htF htFD hw2 hw2S hw3 hw3S hchan hchanD
    hw4 hw4S hfid hfidH hw5 hw5S hw6 hw6S hw7 hw7S hlen1 hlen1D hw8 hw8S htoks
  have h32 := parseLine_v3_joinToks lead seq w1 tI tF w2 w3 chan w4 fid w5 w6 w7 len2 w8 toks
    hlead hseq hseqD hw1 hw1S htI htID htF htFD hw2 hw2S hw3 hw3S hchan hchanD
    hw4 hw4S hfid hfidH hw5 hw5S hw6 hw6S hw7 hw7S hlen2 hlen2D hw8 hw8S htoks
  exact ⟨h11.trans h12.symm, h21.trans h22.symm, h31.trans h32.symm, h11⟩

/-- A declared length of `2` and of `7` produce the same record for a
two-token payload. -/
theorem c8_witness :
    parseLine pattern_v1
        (String.mk (mkV1 [] ['1'] [' '] ['1'] ['5'] [' '] ['R', 'x'] [' '] ['1', 'A'] [' ']
          ['2'] [' '] (joinToks [['6', '4'], ['0', '0']]))) =
      parseLine pattern_v1
        (String.mk (mkV1 [] ['1'] [' '] ['1'] ['5'] [' '] ['R', 'x'] [' '] ['1', 'A'] [' ']
          ['7'] [' '] (joinToks [['6', '4'], ['0', '0']]))) :=
  (c8_declared_length_ignored
    [] ['1'] [' '] ['1'] ['5'] [' '] ['R', 'x'] [' '] ['1'] [' '] ['1', 'A'] [' '] [' ']
    ['2'] ['7'] [' '] [' '] [['6', '4'], ['0', '0']]
    (by decide) (by decide) (by decide) (by decide) (by decide) (by decide) (by decide)
    (by decide) (by decide) (by decide) (by decide) (by decide) (by decide) (by decide)
    (by decide) (by decide) (by decide) (by decide) (by decide) (by decide) (by decide)
    (by decide) (by decide) (by decide) (by decide) (by decide) (by decide) (by decide)
    (by decide) (by decide) (by decide) (by decide) (by decide)
    (⟨by decide, by decide, by decide⟩)).1

/-- C9: a trace file with fewer than 10 lines makes the header read
raise (`StopIteration` from the ten unconditional `next` calls) whatever
its content, and a successful decode implies the file had at least 10
lines. -/
theorem c9_short_header_raises (db : Db) (lines : List String) :
    (lines.length < 10 → decode_can db lines = Except.error DecErr.headerEOF) ∧
    (∀ t, decode_can db lines = Except.ok t → 10 ≤ lines.length) := by
  constructor
  · intro h
    simp [decode_can, h]
  · intro t h
    by_contra hlt
    push_neg at hlt
    simp [decode_can, hlt] at h

/-- A trace of 3 lines (even with a valid data line) errors in the
header read. -/
theorem c9_witness :
    ([";$FILEVERSION=1.1", ";", "1) 12.5 Rx 100 2 64 00"] : List String).length < 10 ∧
    decode_can speedDb [";$FILEVERSION=1.1", ";", "1) 12.5 Rx 100 2 64 00"] =
      Except.error DecErr.headerEOF :=
  ⟨by decide,
    (c9_short_header_raises speedDb [";$FILEVERSION=1.1", ";", "1) 12.5 Rx 100 2 64 00"]).1
      (by decide)⟩

/-- The empty database: every frame-id lookup misses. -/
def emptyDb : Db := { messages := [] }

/-- C3: the decode pipeline builds a dict with a `Timestamp` column
first, then exactly one column per signal name declared anywhere in the
database (first occurrence order, no duplicates), each signal column
pre-sized to the matched-record count and filled with `None`, the
`Timestamp` column holding every matched record's timestamp in file
order; and after the decode loop every column still has exactly one row
per matched record. -/
theorem c3_table_shape (db : Db) (lines : List String)
    (hts : "Timestamp" ∉ allSigNames db)
    (recs : List TraceRecord) (hrecs : recs = traceRecords (selectPattern lines) lines)
    (t0 : Table) (ht0 : t0 = initTable db (recs.map (fun r => r.ts))) :
    (t0.map Prod.fst = "Timestamp" :: firstDedup (allSigNames db)) ∧
    ((t0.map Prod.fst).Nodup) ∧
    (∀ s, s ∈ t0.map Prod.fst ↔ s = "Timestamp" ∨ s ∈ allSigNames db) ∧
    (∀ col ∈ t0, col.1 ≠ "Timestamp" → col.2 = List.replicate recs.length none) ∧
    (∀ col ∈ t0, col.1 = "Timestamp" → col.2 = recs.map (fun r => some r.ts)) ∧
    (∀ col ∈ t0, col.2.length = recs.length) ∧
    (∀ u, scatterAll db t0 0 recs = Except.ok u → ∀ col ∈ u, col.2.length = recs.length) := by
  subst ht0
  have hkeys := initTable_keys db (recs.map (fun r => r.ts)) hts
  have hinv := initTable_inv db (recs.map (fun r => r.ts))
  refine ⟨hkeys, ?_, ?_, ?_, ?_, ?_, ?_⟩
  · rw [hkeys]
    refine List.Nodup.cons ?_ (nodup_firstDedup _)
    rw [mem_firstDedup]
    exact hts
  · intro s
    rw [hkeys]
    simp [mem_firstDedup]
  · intro col hcol h1
    rw [hinv.2.1 col hcol h1]
    simp
  · intro col hcol h1
    rw [hinv.1 col hcol h1]
    simp
  · intro col hcol
    rw [initTable_length db _ col hcol]
    simp
  · intro u hu col hcol
    have hlen := scatterAll_lenSnap db recs _ 0 u hu
    have : (col.1, col.2.length) ∈ lenSnap u := by
      simp [lenSnap]
      exact ⟨col.1, col.2, hcol, rfl, rfl⟩
    rw [hlen] at this
    simp only [lenSnap, List.mem_map] at this
    obtain ⟨col0, hcol0, heq⟩ := this
    have h2 : col.2.length = col0.2.length := by
      have := congrArg Prod.snd heq
      simpa using this.symm
    rw [h2, initTable_length db _ col0 hcol0]
    simp

/-- The scenario-A database and trace satisfy the table-shape theorem:
the dict columns are `Timestamp` then the declared signal names. -/
theorem c3_witness :
    "Timestamp" ∉ allSigNames speedDb ∧
    (initTable speedDb
        ((traceRecords (selectPattern c6Lines) c6Lines).map (fun r => r.ts))).map Prod.fst =
      "Timestamp" :: firstDedup (allSigNames speedDb) :=
  ⟨by decide,
    (c3_table_shape speedDb c6Lines (by decide) _ rfl _ rfl).1⟩

/-- C4: a decoded table returned by `decode_can` never contains a column
that is `None` in every row, and it has a `Timestamp` column whenever
some trace record matched. -/
theorem c4_no_all_empty_columns (db : Db) (lines : List String) (t : Table)
    (h : decode_can db lines = Except.ok t) :
    (∀ col ∈ t, col.2.any (fun x => x.isSome) = true) ∧
    (traceRecords (selectPattern lines) lines ≠ [] → ∃ cells, ("Timestamp", cells) ∈ t) := by
  unfold decode_can at h
  split at h
  · cases h
  · rename_i hlen
    cases heq : scatterAll db
        (initTable db ((traceRecords (selectPattern lines) lines).map (fun r => r.ts)))
        0 (traceRecords (selectPattern lines) lines) with
    | error e => rw [heq] at h; cases h
    | ok t1 =>
      rw [heq] at h
      injection h with h2
      subst h2
      constructor
      · intro col hcol
        exact (List.mem_filter.mp hcol).2
      · intro hne
        have hinv := initTable_inv db ((traceRecords (selectPattern lines) lines).map
          (fun r => r.ts))
        obtain ⟨col0, hcol0, hts0⟩ := List.any_eq_true.mp hinv.2.2
        have hts0' : col0.1 = "Timestamp" := by simpa using hts0
        have hcells0 := hinv.1 col0 hcol0 hts0'
        have hmemlen : ("Timestamp", (traceRecords (selectPattern lines) lines).length) ∈
            lenSnap (initTable db ((traceRecords (selectPattern lines) lines).map
              (fun r => r.ts))) := by
          simp only [lenSnap, List.mem_map]
          refine ⟨col0, hcol0, ?_⟩
          rw [hcells0, hts0']
          simp
        rw [← scatterAll_lenSnap db _ _ 0 t1 heq] at hmemlen
        simp only [lenSnap, List.mem_map] at hmemlen
        obtain ⟨col1, hcol1, heq1⟩ := hmemlen
        have hts1 : col1.1 = "Timestamp" := by
          have := congrArg Prod.fst heq1
          simpa using this
        have hlen1 : col1.2.length = (traceRecords (selectPattern lines) lines).length := by
          have := congrArg Prod.snd heq1
          simpa using this
        have hsome : TsSome t1 := by
          refine scatterAll_tsSome db _ _ 0 t1 heq ?_
          intro col hcol hc x hx
          rw [hinv.1 col hcol hc] at hx
          rw [List.mem_map] at hx
          obtain ⟨q, _, hq⟩ := hx
          rw [← hq]
          rfl
        have hne1 : col1.2 ≠ [] := by
          intro hnil
          rw [hnil] at hlen1
          exact hne (List.eq_nil_of_length_eq_zero hlen1.symm)
        obtain ⟨x, hx⟩ := List.exists_mem_of_ne_nil col1.2 hne1
        have hany : col1.2.any (fun x => x.isSome) = true :=
          List.any_eq_true.mpr ⟨x, hx, hsome col1 hcol1 hts1 x hx⟩
        refine ⟨col1.2, ?_⟩
        rw [← hts1]
        exact List.mem_filter.mpr ⟨hcol1, hany⟩

/-- The scenario-A decode returns a table whose two columns each hold a
value, with `Timestamp` present. -/
theorem c4_witness :
    decode_can speedDb c6Lines =
      Except.ok [("Timestamp", [some (mkRat 25 2)]), ("Speed", [some (mkRat 10 1)])] ∧
    ∃ cells, ("Timestamp", cells) ∈
      ([("Timestamp", [some (mkRat 25 2)]), ("Speed", [some (mkRat 10 1)])] : Table) :=
  ⟨by rfl,
    (c4_no_all_empty_columns speedDb c6Lines
      [("Timestamp", [some (mkRat 25 2)]), ("Speed", [some (mkRat 10 1)])] (by rfl)).2
      (by decide)⟩

/-- C5: a record whose frame id has no message in the database is
skipped without error — the loop body returns the table unchanged — and
in the loop's result that record's row still exists, its signal cells
are still `None`, and its `Timestamp` cell holds the record's timestamp. -/
theorem c5_unknown_frame_id_skipped (db : Db) (lines : List String)
    (recs : List TraceRecord) (hrecs : recs = traceRecords (selectPattern lines) lines)
    (i : Nat) (rec : TraceRecord) (hi : recs[i]? = some rec)
    (hmiss : getMessageByFrameId db rec.fid = none)
    (u : Table)
    (hok : scatterAll db (initTable db (recs.map (fun r => r.ts))) 0 recs = Except.ok u) :
    (∀ t j, scatterOne db t j rec = Except.ok t) ∧
    (∀ col ∈ u, col.1 = "Timestamp" → col.2[i]? = some (some rec.ts)) ∧
    (∀ col ∈ u, col.1 ≠ "Timestamp" → col.2[i]? = some none) ∧
    (∀ col ∈ u, col.2.length = recs.length) := by
  have hskip : ∀ t j, scatterOne db t j rec = Except.ok t := by
    intro t j
    unfold scatterOne
    rw [hmiss]
  have hilt : i < recs.length := by
    by_contra hge
    push_neg at hge
    rw [List.getElem?_eq_none hge] at hi
    cases hi
  have hgot : recs[i] = rec := by
    obtain ⟨h1, h2⟩ := List.getElem?_eq_some.mp hi
    exact h2
  have hsplit : recs = recs.take i ++ rec :: recs.drop (i + 1) := by
    conv_lhs => rw [← List.take_append_drop i recs]
    rw [List.drop_eq_getElem_cons hilt, hgot]
  have hlenpart : ∀ col ∈ u, col.2.length = recs.length := by
    intro col hcol
    have hlen := scatterAll_lenSnap db recs _ 0 u hok
    have hmem : (col.1, col.2.length) ∈ lenSnap u := by
      simp only [lenSnap, List.mem_map]
      exact ⟨col, hcol, rfl⟩
    rw [hlen] at hmem
    simp only [lenSnap, List.mem_map] at hmem
    obtain ⟨col0, hcol0, heq0⟩ := hmem
    have h2 : col.2.length = col0.2.length := by
      have := congrArg Prod.snd heq0
      simpa using this.symm
    rw [h2, initTable_length db _ col0 hcol0]
    simp
  generalize ht0 : initTable db (recs.map (fun r => r.ts)) = t0 at hok
  rw [hsplit] at hok
  obtain ⟨u1, hu1, hu2⟩ := scatterAll_ok_append db _ _ t0 0 u hok
  rw [show (0 : Nat) + (recs.take i).length = i by
    simp [List.length_take]; omega] at hu2
  unfold scatterAll at hu2
  rw [hskip u1 i] at hu2
  have hrow1 : rowSnap u i = rowSnap u1 i := by
    refine scatterAll_rowSnap db _ u1 (i + 1) u i ?_ hu2
    left
    omega
  have hrow0 : rowSnap u1 i = rowSnap t0 i := by
    refine scatterAll_rowSnap db _ t0 0 u1 i ?_ hu1
    right
    simp [List.length_take]
  have hrow : rowSnap u i = rowSnap (initTable db (recs.map (fun r => r.ts))) i := by
    rw [hrow1, hrow0, ht0]
  have hinv := initTable_inv db (recs.map (fun r => r.ts))
  have hcell : ∀ col ∈ u, ∃ col0 ∈ initTable db (recs.map (fun r => r.ts)),
      col0.1 = col.1 ∧ col.2[i]? = col0.2[i]? := by
    intro col hcol
    have hmem : (col.1, col.2[i]?) ∈ rowSnap u i := by
      simp only [rowSnap, List.mem_map]
      exact ⟨col, hcol, rfl⟩
    rw [hrow] at hmem
    simp only [rowSnap, List.mem_map] at hmem
    obtain ⟨col0, hcol0, heq0⟩ := hmem
    refine ⟨col0, hcol0, ?_, ?_⟩
    · have := congrArg Prod.fst heq0
      simpa using this
    · have := congrArg Prod.snd heq0
      simpa using this.symm
  refine ⟨hskip, ?_, ?_, hlenpart⟩
  · intro col hcol hts
    obtain ⟨col0, hcol0, hname, hcell0⟩ := hcell col hcol
    rw [hcell0, hinv.1 col0 hcol0 (hname.trans hts)]
    rw [List.getElem?_map, List.getElem?_map, hi]
    rfl
  · intro col hcol hts
    obtain ⟨col0, hcol0, hname, hcell0⟩ := hcell col hcol
    rw [hcell0, hinv.2.1 col0 hcol0 (fun h => hts (hname.symm.trans h))]
    rw [List.getElem?_replicate]
    rw [if_pos (by simpa using hilt)]

/-- Against the empty database the single scenario-A record is skipped:
the loop is a no-op and the timestamp survives at row 0. -/
theorem c5_witness :
    scatterOne emptyDb [("Timestamp", [some (mkRat 25 2)])] 0
      { ts := mkRat 25 2, fid := 256, payload := ['6', '4', ' ', '0', '0'] } =
      Except.ok [("Timestamp", [some (mkRat 25 2)])] ∧
    ([some (mkRat 25 2)] : List Cell)[0]? = some (some (mkRat 25 2)) := by
  have h := c5_unknown_frame_id_skipped emptyDb c6Lines _ rfl 0
    { ts := mkRat 25 2, fid := 256, payload := ['6', '4', ' ', '0', '0'] }
    (by decide) (by rfl) [("Timestamp", [some (mkRat 25 2)])] (by rfl)
  exact ⟨h.1 [("Timestamp", [some (mkRat 25 2)])] 0,
    h.2.1 ("Timestamp", [some (mkRat 25 2)]) (by decide) rfl⟩

/-- C6: end-to-end scenario A — a DBC with message `0x100` carrying one
signal `Speed` (scale 0.1, offset 0) and a `1.1`-grammar trace line with
id `100`, length `2`, payload `64 00` decode to `Speed = 10.0` at that
line's timestamp `12.5`, and the output table has exactly the columns
`Timestamp`, `Speed`. -/
theorem c6_end_to_end_scenario_a :
    decode_can speedDb c6Lines =
      Except.ok [("Timestamp", [some (mkRat 25 2)]), ("Speed", [some (mkRat 10 1)])] ∧
    mkRat 25 2 = (25 : ℚ) / 2 ∧
    mkRat 10 1 = (10 : ℚ) ∧
    ([("Timestamp", [some (mkRat 25 2)]), ("Speed", [some (mkRat 10 1)])] : Table).map
      Prod.fst = ["Timestamp", "Speed"] := by
  refine ⟨by rfl, by norm_num [Rat.mkRat_eq_div], by norm_num [Rat.mkRat_eq_div], by rfl⟩

/-- C7: at decode time a missing staged file yields the "Please upload
both files." message with download disabled, and an empty or
under-populated table yields "No data to plot." with download disabled —
both the same message-and-disable outcome, with no chart. -/
theorem c7_decode_and_plot_guards (dbcE trcE : Bool) (df : Table) :
    (¬(dbcE = true ∧ trcE = true) →
      decode_and_plot dbcE trcE df = PlotOut.msg "Please upload both files." true) ∧
    (numRows df = 0 ∨ df.length < 2 →
      decode_and_plot true true df = PlotOut.msg "No data to plot." true) := by
  constructor
  · intro h
    have hb : (dbcE && trcE) = false := by
      cases dbcE <;> cases trcE <;> simp_all
    simp [decode_and_plot, hb]
  · intro h
    rcases h with h | h
    · simp [decode_and_plot, h]
    · simp [decode_and_plot, h]

/-- A missing DBC and an empty table each produce their guard message. -/
theorem c7_witness :
    decode_and_plot false true [] = PlotOut.msg "Please upload both files." true ∧
    decode_and_plot true true [] = PlotOut.msg "No data to plot." true :=
  ⟨(c7_decode_and_plot_guards false true []).1 (by simp),
    (c7_decode_and_plot_guards true true []).2 (Or.inl rfl)⟩

/-- The scenario-A trace with the payload token `1FF` instead of `64`. -/
def c10Lines : List String :=
  [";$FILEVERSION=1.1", ";", ";", ";", ";", ";", ";", ";", ";", "1) 12.5 Rx 100 2 1FF 00"]

/-- C10: a matched record whose frame id resolves to a known message and
whose payload contains a token above `0xFF` makes the byte conversion
raise: `decode_can` returns no table. -/
theorem c10_oversized_token_raises (db : Db) (lines : List String)
    (rec : TraceRecord) (hrec : rec ∈ traceRecords (selectPattern lines) lines)
    (m : Message) (hm : getMessageByFrameId db rec.fid = some m)
    (tok : List Char) (htok : tok ∈ splitWs rec.payload) (hval : 255 < hexValN tok) :
    (decode_can db lines).isOk = false := by
  have hbad := payloadBytes_none_of_big_token rec.payload tok htok hval
  unfold decode_can
  split
  · rfl
  · obtain ⟨e, he⟩ := scatterAll_error_of_bad db _ rec hrec m hm hbad
      (initTable db ((traceRecords (selectPattern lines) lines).map (fun r => r.ts))) 0
    rw [he]
    rfl

/-- The oversized-token trace against the scenario-A database yields no
table. -/
theorem c10_witness : (decode_can speedDb c10Lines).isOk = false :=
  c10_oversized_token_raises speedDb c10Lines
    { ts := mkRat 25 2, fid := 256, payload := ['1', 'F', 'F', ' ', '0', '0'] }
    (by decide) speedMsg (by rfl) ['1', 'F', 'F'] (by decide) (by decide)


